import Mathlib

/-!
Shallow embedding of the TagonJS v2.0 query engine (lexer, parser, query
executor, constraint validator, storage manager) from the JavaScript source,
together with theorems settling the frozen claims about the specification.

Modelling conventions:
* JavaScript values flowing through the engine (numbers, strings, booleans,
  null, undefined) are modelled by the inductive type `Value`; JS numbers are
  modelled as rationals (all numbers produced by the engine's lexer are finite
  decimals).  No claim depends on float rounding, NaN or Infinity.
* JavaScript objects (records, result rows, the `registros` map) are modelled
  as insertion-ordered association lists with JS assignment semantics
  (`mapSet`): assigning to an existing key updates it in place, assigning to a
  fresh key appends it.
* Fallible code (`throw new Error`) is modelled with `Except String`.
* The lexer and the recursive-descent parser are modelled with an explicit
  fuel parameter; running out of fuel is a distinguished error constructor so
  that no theorem about a parse error can be satisfied by fuel exhaustion.
* Source offsets carried by tokens are reproduced from the lexer's position
  arithmetic; error messages follow the source text except that the decorative
  quotation marks around interpolated names are omitted.
-/

deriving instance DecidableEq for Except

namespace TagonJS

/-- Powers of ten (structural). -/
def pow10 : Nat → Int
  | 0 => 1
  | n + 1 => 10 * pow10 n

/-- JS numbers, modelled as exact decimal fractions `mant / 10 ^ exp`.  The
engine's lexer only produces finite decimals; arithmetic keeps the
representation normalized (no trailing ten-factor in the mantissa while the
exponent is positive), so structural equality agrees with value equality on
every number the engine constructs.  Float rounding, NaN and Infinity are
outside the model — no claim depends on them. -/
structure JNum where
  mant : Int
  exp : Nat
deriving Repr, DecidableEq

/-- Strip trailing ten-factors to reach the normal form. -/
def decNorm : Int → Nat → JNum
  | m, 0 => JNum.mk m 0
  | m, e + 1 => if m % 10 == 0 then decNorm (m / 10) e else JNum.mk m (e + 1)

/-- An integer as a JS number. -/
def JNum.ofInt (m : Int) : JNum := JNum.mk m 0

/-- Value equality of decimal fractions (cross multiplication). -/
def decEqv (a b : JNum) : Bool :=
  a.mant * pow10 b.exp == b.mant * pow10 a.exp

/-- Strict value order of decimal fractions. -/
def decLt (a b : JNum) : Bool :=
  a.mant * pow10 b.exp < b.mant * pow10 a.exp

/-- Non-strict value order of decimal fractions. -/
def decLe (a b : JNum) : Bool :=
  a.mant * pow10 b.exp ≤ b.mant * pow10 a.exp

/-- Exact decimal addition. -/
def decAdd (a b : JNum) : JNum :=
  let e := max a.exp b.exp
  decNorm (a.mant * pow10 (e - a.exp) + b.mant * pow10 (e - b.exp)) e

/-- Negation. -/
def decNeg (a : JNum) : JNum := JNum.mk (-a.mant) a.exp

/-- Exact decimal subtraction. -/
def decSub (a b : JNum) : JNum := decAdd a (decNeg b)

/-- Exact decimal multiplication. -/
def decMul (a b : JNum) : JNum := decNorm (a.mant * b.mant) (a.exp + b.exp)

/-- Division, modelled only when the exact quotient is an integer; division
by zero and fractional quotients yield none (JS computes floats there; no
claim divides). -/
def decDiv (a b : JNum) : Option JNum :=
  if b.mant == 0 then none
  else
    let n := a.mant * pow10 b.exp
    let d := b.mant * pow10 a.exp
    if n % d == 0 then some (JNum.mk (n / d) 0) else none

/-- `String(n)` for a decimal fraction. -/
def decToString (d : JNum) : String :=
  if d.exp == 0 then toString d.mant
  else
    let p := (pow10 d.exp).toNat
    let sign := if d.mant < 0 then "-" else ""
    let a := d.mant.natAbs
    let fracDigits := toString (a % p)
    let pad := String.mk (List.replicate (d.exp - fracDigits.toList.length) '0')
    sign ++ toString (a / p) ++ "." ++ pad ++ fracDigits

/-- JavaScript scalar values as used by the engine. -/
inductive Value where
  | num (q : JNum)
  | str (s : String)
  | bool (b : Bool)
  | null
  | undef
deriving Repr, DecidableEq

/-- The `/\\s/` whitespace class (also used by `skipWhitespace`). -/
def isSpaceJS (c : Char) : Bool :=
  c == ' ' || c == '\t' || c == '\n' || c == '\r' || c == '\x0b' || c == '\x0c'

/-- `String.prototype.toLowerCase` (structural, per character). -/
def strLower (s : String) : String :=
  String.mk (s.toList.map Char.toLower)

/-- `String.prototype.trim` (structural). -/
def strTrim (s : String) : String :=
  String.mk (((s.toList.dropWhile isSpaceJS).reverse.dropWhile
    isSpaceJS).reverse)

/-- `String.prototype.split` with a one-character separator
(`"".split(sep)` is `[""]`, as in JS). -/
def splitOnCharAux (sep : Char) : List Char → List Char → List String
  | [], cur => [String.mk cur.reverse]
  | c :: cs, cur =>
      if c == sep then String.mk cur.reverse :: splitOnCharAux sep cs []
      else splitOnCharAux sep cs (c :: cur)

/-- `String.prototype.split` on a single-character separator. -/
def strSplitOnChar (sep : Char) (s : String) : List String :=
  splitOnCharAux sep s.toList []

/-- `String.prototype.startsWith` (structural). -/
def strStartsWith (s pre : String) : Bool :=
  pre.toList.isPrefixOf s.toList

/-- `String.prototype.substring(n)` by character count (structural). -/
def strDrop (s : String) (n : Nat) : String :=
  String.mk (s.toList.drop n)

/-- Character-count length (the engine only handles ASCII identifiers). -/
def strLen (s : String) : Nat := s.toList.length

/-- `Array.prototype.join` on strings. -/
def strJoin (sep : String) : List String → String
  | [] => ""
  | [x] => x
  | x :: xs => x ++ sep ++ strJoin sep xs

/-- JS truthiness of a `Value` (`!v` in the source tests for falsiness). -/
def jsTruthy : Value → Bool
  | .num q => ¬ (q.mant == 0)
  | .str s => s ≠ ""
  | .bool b => b
  | .null => false
  | Value.undef => false

/-- JS `typeof v === 'number'`. -/
def isNum : Value → Bool
  | .num _ => true
  | _ => false

/-- JS `typeof v === 'string'`. -/
def isStr : Value → Bool
  | .str _ => true
  | _ => false

/-- JS `typeof v === 'boolean'`. -/
def isBool : Value → Bool
  | .bool _ => true
  | _ => false

/-- `v === null || v === undefined`, the absence test used by the validator. -/
def isNullish : Value → Bool
  | .null => true
  | Value.undef => true
  | _ => false

/-- Numeric value of a digit string. -/
def digitsVal (cs : List Char) : Int :=
  cs.foldl (fun acc c => acc * 10 + ((c.toNat - '0'.toNat : Nat) : Int)) 0

/-- The decimal fraction denoted by integer digits and fraction digits. -/
def decOfDigits (intD frD : List Char) : JNum :=
  decNorm (digitsVal intD * pow10 frD.length + digitsVal frD) frD.length

/-- JS `ToNumber` on the values the engine produces; `none` models `NaN`.
String conversion handles the plain decimal forms produced by this engine
(optionally signed digits with an optional fraction); other strings are `NaN`.
-/
def toNumber : Value → Option JNum
  | .num q => some q
  | .bool b => some (JNum.ofInt (if b then 1 else 0))
  | .null => some (JNum.ofInt 0)
  | Value.undef => none
  | .str s =>
      let cs := (strTrim s).toList
      if cs.isEmpty then some (JNum.ofInt 0)
      else
        let (neg, cs) : Bool × List Char := match cs with
          | '-' :: rest => (true, rest)
          | '+' :: rest => (false, rest)
          | rest => (false, rest)
        let intPart := cs.takeWhile Char.isDigit
        let rest := cs.dropWhile Char.isDigit
        let sgn : JNum → JNum := fun d => if neg then decNeg d else d
        match rest with
        | [] =>
            if intPart.isEmpty then none
            else some (sgn (decOfDigits intPart []))
        | '.' :: fracs =>
            if fracs.all Char.isDigit ∧ ¬(intPart.isEmpty ∧ fracs.isEmpty) then
              some (sgn (decOfDigits intPart fracs))
            else none
        | _ => none

/-- JS loose equality `==` restricted to the engine's scalar values. -/
def jsEq : Value → Value → Bool
  | .null, .null => true
  | .null, Value.undef => true
  | Value.undef, .null => true
  | Value.undef, Value.undef => true
  | .null, _ => false
  | _, .null => false
  | Value.undef, _ => false
  | _, Value.undef => false
  | .num a, .num b => decEqv a b
  | .str a, .str b => a == b
  | a, b =>
      match toNumber a, toNumber b with
      | some x, some y => decEqv x y
      | _, _ => false

/-- JS abstract relational comparison `a < b` (both operands are scalars:
both-strings compares lexicographically, otherwise numerically; any `NaN`
makes the comparison false). -/
def jsLt : Value → Value → Bool
  | .str a, .str b => a < b
  | a, b =>
      match toNumber a, toNumber b with
      | some x, some y => decLt x y
      | _, _ => false

/-- JS `a > b` is the relational comparison with the operands swapped. -/
def jsGt (a b : Value) : Bool := jsLt b a

/-- JS `a <= b`: false when `b < a` is undefined (NaN), else the negation. -/
def jsLe : Value → Value → Bool
  | .str a, .str b => ¬(b < a)
  | a, b =>
      match toNumber a, toNumber b with
      | some x, some y => decLe x y
      | _, _ => false

/-- JS `a >= b`. -/
def jsGe (a b : Value) : Bool := jsLe b a

/-- JS `String(v)` / template-literal conversion. -/
def jsToString : Value → String
  | .num q => decToString q
  | .str s => s
  | .bool b => if b then "true" else "false"
  | .null => "null"
  | Value.undef => "undefined"

/-- JS objects: insertion-ordered association lists. -/
abbrev Obj := List (String × Value)

/-- JS assignment `o[k] = v`: update in place when the key exists, otherwise
append the new key at the end. -/
def mapSet {α : Type} (o : List (String × α)) (k : String) (v : α) :
    List (String × α) :=
  if o.any (fun kv => kv.1 == k) then
    o.map (fun kv => if kv.1 == k then (k, v) else kv)
  else o ++ [(k, v)]

/-- JS member read `o[k]`: `undefined` when the key is absent. -/
def objGet (o : Obj) (k : String) : Value :=
  match o.find? (fun kv => kv.1 == k) with
  | some kv => kv.2
  | none => Value.undef

/-- JS spread `{ ...a, ...b }`: fold JS assignment of `b`'s entries over `a`. -/
def mergeObj (a b : Obj) : Obj :=
  b.foldl (fun acc kv => mapSet acc kv.1 kv.2) a

/-- `Object.keys`. -/
def objKeys (o : Obj) : List String := o.map (fun kv => kv.1)

end TagonJS
namespace TagonJS

/-- Token kinds, one per entry of the source's `TokenType` enumeration. -/
inductive Tok where
  | SELECT | FROM | WHERE | JOIN | INNER | LEFT | RIGHT | ON | AND | OR
  | ORDER | BY | GROUP | HAVING | INSERT | INTO | VALUES | UPDATE | SET
  | DELETE | CREATE | TABLE | DATABASE | USE
  | PRIMARY | KEY | FOREIGN | REFERENCES | UNIQUE | AUTO | INCREMENT
  | NOT | NULL | DEFAULT
  | EQUALS | NOT_EQUALS | LESS_THAN | GREATER_THAN | LESS_EQUAL
  | GREATER_EQUAL | LIKE
  | COMMA | DOT | COLON | SEMICOLON | OPEN_PAREN | CLOSE_PAREN | ASTERISK
  | IDENTIFIER | NUMBER | STRING | EOF
deriving Repr, DecidableEq

/-- The string form of a token kind, as used in parser error messages. -/
def tokName : Tok → String
  | .SELECT => "SELECT" | .FROM => "FROM" | .WHERE => "WHERE" | .JOIN => "JOIN"
  | .INNER => "INNER" | .LEFT => "LEFT" | .RIGHT => "RIGHT" | .ON => "ON"
  | .AND => "AND" | .OR => "OR" | .ORDER => "ORDER" | .BY => "BY"
  | .GROUP => "GROUP" | .HAVING => "HAVING" | .INSERT => "INSERT"
  | .INTO => "INTO" | .VALUES => "VALUES" | .UPDATE => "UPDATE"
  | .SET => "SET" | .DELETE => "DELETE" | .CREATE => "CREATE"
  | .TABLE => "TABLE" | .DATABASE => "DATABASE" | .USE => "USE"
  | .PRIMARY => "PRIMARY" | .KEY => "KEY" | .FOREIGN => "FOREIGN"
  | .REFERENCES => "REFERENCES" | .UNIQUE => "UNIQUE" | .AUTO => "AUTO"
  | .INCREMENT => "INCREMENT" | .NOT => "NOT" | .NULL => "NULL"
  | .DEFAULT => "DEFAULT" | .EQUALS => "=" | .NOT_EQUALS => "!="
  | .LESS_THAN => "<" | .GREATER_THAN => ">" | .LESS_EQUAL => "<="
  | .GREATER_EQUAL => ">=" | .LIKE => "LIKE" | .COMMA => ","
  | .DOT => "." | .COLON => ":" | .SEMICOLON => ";" | .OPEN_PAREN => "("
  | .CLOSE_PAREN => ")" | .ASTERISK => "*" | .IDENTIFIER => "IDENTIFIER"
  | .NUMBER => "NUMBER" | .STRING => "STRING" | .EOF => "EOF"

/-- A lexed token: kind, literal value and source offset. -/
structure Token where
  type : Tok
  value : Value
  position : Nat
deriving Repr, DecidableEq

/-- `history.slice(-n)`: the most recent `n` tokens (fewer when the history
is shorter). -/
def recentTokens (hist : List Token) (n : Nat) : List Token :=
  hist.drop (hist.length - n)

/-- `Lexer.detectContextualEm`: resolve the ambiguous keyword from the last
three emitted tokens — any Insert keyword wins, then any Join keyword,
otherwise the Insert reading is the default. -/
def detectContextualEm (hist : List Token) : Tok :=
  let previousTokens := recentTokens hist 3
  if previousTokens.any (fun t => t.type == .INSERT) then .INTO
  else if previousTokens.any (fun t => t.type == .JOIN) then .ON
  else .INTO

/-- `Lexer.addToHistory`: push the token, keeping at most the last 10. -/
def addToHistory (hist : List Token) (t : Token) : List Token :=
  let h := hist ++ [t]
  if h.length > 10 then h.drop 1 else h

/-- The keyword table maps identifier text either to a fixed kind or to the
contextual resolver. -/
inductive KwEntry where
  | fixed (t : Tok)
  | contextualEm
deriving Repr, DecidableEq

/-- `Lexer.keywords`: Portuguese keywords plus the English compatibility
aliases for the constraint vocabulary. -/
def keywords : String → Option KwEntry
  | "selecionar" => some (.fixed .SELECT)
  | "de" => some (.fixed .FROM)
  | "onde" => some (.fixed .WHERE)
  | "juntar" => some (.fixed .JOIN)
  | "interno" => some (.fixed .INNER)
  | "esquerda" => some (.fixed .LEFT)
  | "direita" => some (.fixed .RIGHT)
  | "em" => some .contextualEm
  | "e" => some (.fixed .AND)
  | "ou" => some (.fixed .OR)
  | "ordenar" => some (.fixed .ORDER)
  | "por" => some (.fixed .BY)
  | "agrupar" => some (.fixed .GROUP)
  | "tendo" => some (.fixed .HAVING)
  | "inserir" => some (.fixed .INSERT)
  | "valores" => some (.fixed .VALUES)
  | "atualizar" => some (.fixed .UPDATE)
  | "definir" => some (.fixed .SET)
  | "remover" => some (.fixed .DELETE)
  | "criar" => some (.fixed .CREATE)
  | "tabela" => some (.fixed .TABLE)
  | "banco" => some (.fixed .DATABASE)
  | "usar" => some (.fixed .USE)
  | "como" => some (.fixed .LIKE)
  | "primaria" => some (.fixed .PRIMARY)
  | "chave" => some (.fixed .KEY)
  | "estrangeira" => some (.fixed .FOREIGN)
  | "referencia" => some (.fixed .REFERENCES)
  | "unico" => some (.fixed .UNIQUE)
  | "auto" => some (.fixed .AUTO)
  | "incremento" => some (.fixed .INCREMENT)
  | "nao" => some (.fixed .NOT)
  | "nulo" => some (.fixed .NULL)
  | "padrao" => some (.fixed .DEFAULT)
  | "primary" => some (.fixed .PRIMARY)
  | "key" => some (.fixed .KEY)
  | "foreign" => some (.fixed .FOREIGN)
  | "references" => some (.fixed .REFERENCES)
  | "unique" => some (.fixed .UNIQUE)
  | "increment" => some (.fixed .INCREMENT)
  | "not" => some (.fixed .NOT)
  | "null" => some (.fixed .NULL)
  | "default" => some (.fixed .DEFAULT)
  | _ => none

/-- The `/\w/`-or-underscore class used by `readIdentifier`. -/
def isWordChar (c : Char) : Bool :=
  c.isAlpha || c.isDigit || c == '_'

/-- `Lexer.readString` body after the opening quote: consume until the
matching quote, translating escape sequences (`\n`, `\t`, `\r`; every other
escaped character passes through literally).  `none` models the unterminated
case. -/
def readStringAux (quote : Char) : List Char → Option (String × List Char)
  | [] => none
  | c :: cs =>
    if c == quote then some ("", cs)
    else if c == '\\' then
      match cs with
      | [] => none
      | e :: cs2 =>
        let ch := if e == 'n' then '\n'
          else if e == 't' then '\t'
          else if e == 'r' then '\r'
          else e
        match readStringAux quote cs2 with
        | some (s, rest) => some (ch.toString ++ s, rest)
        | none => none
    else
      match readStringAux quote cs with
      | some (s, rest) => some (c.toString ++ s, rest)
      | none => none

/-- `Lexer.readNumber`: digits, then an optional decimal point and more
digits; the numeric value of the consumed text. -/
def readNumber (cs : List Char) : JNum × List Char :=
  let intD := cs.takeWhile Char.isDigit
  let r1 := cs.dropWhile Char.isDigit
  match r1 with
  | '.' :: cs2 =>
      let fr := cs2.takeWhile Char.isDigit
      let r2 := cs2.dropWhile Char.isDigit
      (decOfDigits intD fr, r2)
  | _ => (decOfDigits intD [], r1)

/-- `Lexer.readIdentifier`. -/
def readIdent (cs : List Char) : String × List Char :=
  (String.mk (cs.takeWhile isWordChar), cs.dropWhile isWordChar)

/-- The `singleCharTokens` table. -/
def singleCharTok (c : Char) : Option Tok :=
  if c == '=' then some .EQUALS
  else if c == '<' then some .LESS_THAN
  else if c == '>' then some .GREATER_THAN
  else if c == ',' then some .COMMA
  else if c == '.' then some .DOT
  else if c == ':' then some .COLON
  else if c == ';' then some .SEMICOLON
  else if c == '(' then some .OPEN_PAREN
  else if c == ')' then some .CLOSE_PAREN
  else if c == '*' then some .ASTERISK
  else none

/-- Lexer errors; `fuelOut` is the artificial out-of-fuel marker and never
corresponds to a source behaviour. -/
inductive LexErr where
  | fuelOut
  | err (msg : String)
deriving Repr, DecidableEq

/-- The tokenize loop: repeatedly `getNextToken` until end of input, threading
the bounded token history.  `total` is the input length, used to reproduce the
source's position arithmetic (position = total − remaining). -/
def lexRun (total : Nat) :
    Nat → List Char → List Token → List Token → Except LexErr (List Token)
  | 0, _, _, _ => .error .fuelOut
  | fuel + 1, cs0, hist, acc =>
    let cs := cs0.dropWhile isSpaceJS
    match cs with
    | [] => .ok (acc ++ [⟨.EOF, .null, total⟩])
    | c :: rest =>
      if c.isDigit then
        let (q, r) := readNumber (c :: rest)
        let tok : Token := ⟨.NUMBER, .num q, total - r.length⟩
        lexRun total fuel r (addToHistory hist tok) (acc ++ [tok])
      else if c == '\'' || c == '"' then
        match readStringAux c rest with
        | none =>
            .error (.err ("Erro léxico na posição " ++ toString total ++
              ": String não fechada"))
        | some (s, r) =>
            let tok : Token := ⟨.STRING, .str s, total - r.length⟩
            lexRun total fuel r (addToHistory hist tok) (acc ++ [tok])
      else if c.isAlpha || c == '_' then
        let (idStr, r) := readIdent (c :: rest)
        let ttype := match keywords idStr with
          | some (.fixed t) => t
          | some .contextualEm => detectContextualEm hist
          | none => .IDENTIFIER
        let tok : Token := ⟨ttype, .str idStr, total - r.length⟩
        lexRun total fuel r (addToHistory hist tok) (acc ++ [tok])
      else if c == '!' && rest.head? == some '=' then
        let r := rest.tail
        let tok : Token := ⟨.NOT_EQUALS, .str "!=", total - r.length - 2⟩
        lexRun total fuel r (addToHistory hist tok) (acc ++ [tok])
      else if c == '<' && rest.head? == some '=' then
        let r := rest.tail
        let tok : Token := ⟨.LESS_EQUAL, .str "<=", total - r.length - 2⟩
        lexRun total fuel r (addToHistory hist tok) (acc ++ [tok])
      else if c == '>' && rest.head? == some '=' then
        let r := rest.tail
        let tok : Token := ⟨.GREATER_EQUAL, .str ">=", total - r.length - 2⟩
        lexRun total fuel r (addToHistory hist tok) (acc ++ [tok])
      else
        match singleCharTok c with
        | some t =>
            let tok : Token := ⟨t, .str c.toString, total - rest.length - 1⟩
            lexRun total fuel rest (addToHistory hist tok) (acc ++ [tok])
        | none =>
            .error (.err ("Erro léxico na posição " ++
              toString (total - (c :: rest).length) ++
              ": Caractere inesperado: " ++ c.toString))

/-- `Lexer.tokenize`: the whole input is lowercased before scanning (string
literals included), then scanned into tokens ending in an EOF token. -/
def tokenize (input : String) : Except LexErr (List Token) :=
  let cs := (strLower input).toList
  lexRun cs.length (cs.length + 1) cs [] []

end TagonJS
namespace TagonJS

/-- Expression AST nodes (`BinaryExpression`, `LiteralExpression`,
`IdentifierExpression`).  `litType` is the literal's declared kind string. -/
inductive Expr where
  | lit (value : Value) (litType : String)
  | ident (name : String) (tableName : Option String)
  | bin (left : Expr) (op : String) (right : Expr)
deriving Repr, DecidableEq

/-- A select-list column's expression: either `AllColumnsExpression`
(optionally table-qualified) or an ordinary expression. -/
inductive SelectExpr where
  | all (tableName : Option String)
  | expr (e : Expr)
deriving Repr, DecidableEq

/-- `ColumnExpression`. -/
structure ColumnExpr where
  expression : SelectExpr
  aliasName : Option String
deriving Repr, DecidableEq

/-- `FromClause`. -/
structure FromClauseA where
  tableName : String
  aliasName : Option String
deriving Repr, DecidableEq

/-- `JoinClause` (`joinType` is the token-type string, INNER/LEFT/RIGHT). -/
structure JoinClauseA where
  joinType : String
  tableName : String
  onCondition : Expr
  aliasName : Option String
deriving Repr, DecidableEq

/-- `OrderByExpression` (`direction` is the string ASC or DESC). -/
structure OrderByExprA where
  expression : Expr
  direction : String
deriving Repr, DecidableEq

/-- `ConstraintDefinition` (the option payload is only used by DEFAULT). -/
structure ConstraintDefA where
  ctype : String
  dval : Option Expr
deriving Repr, DecidableEq

/-- `ColumnDefinition`. -/
structure ColumnDefA where
  name : String
  type : String
  constraints : List ConstraintDefA
  defaultValue : Option Expr
  autoIncrement : Bool
deriving Repr, DecidableEq

/-- `TableConstraint`; the referenced pair is present for FOREIGN_KEY. -/
structure TableConstraintA where
  ctype : String
  columnName : String
  referencedTable : Option String
  referencedColumn : Option String
deriving Repr, DecidableEq

/-- Statement AST: one variant per statement parser.  Where-clauses are
represented by their condition expression (the executor only ever reads
`whereClause.condition`). -/
inductive Statement where
  | select (selectList : List ColumnExpr) (fromClause : FromClauseA)
      (whereCond : Option Expr) (joinClauses : List JoinClauseA)
      (orderBy : Option (List OrderByExprA)) (groupBy : Option (List Expr))
  | insert (tableName : String) (columns : Option (List String))
      (values : List Expr)
  | update (tableName : String) (assignments : List (String × Expr))
      (whereCond : Option Expr)
  | delete (tableName : String) (whereCond : Option Expr)
  | createTable (tableName : String) (columns : List ColumnDefA)
      (tableConstraints : List TableConstraintA)
  | createDatabase (databaseName : String)
deriving Repr, DecidableEq

/-- `Parser.parse` returns a single statement, or the list when the input
holds several (or zero) semicolon-separated statements. -/
inductive ParseOut where
  | one (s : Statement)
  | many (ss : List Statement)
deriving Repr, DecidableEq

/-- Parser errors; `fuelOut` is the artificial out-of-fuel marker and never
corresponds to a source behaviour. -/
inductive ParseErr where
  | fuelOut
  | synErr (msg : String)
deriving Repr, DecidableEq

/-- Parser state: the token array and the cursor `currentToken`. -/
structure PState where
  tokens : List Token
  idx : Nat
deriving Repr, DecidableEq

/-- `Parser.getCurrentToken` (out-of-range reads yield the trailing EOF). -/
def getCurrentToken (s : PState) : Token :=
  if s.idx ≥ s.tokens.length then s.tokens.getLastD ⟨.EOF, .null, 0⟩
  else s.tokens.getD s.idx ⟨.EOF, .null, 0⟩

/-- `Parser.error`: a syntax error at the current token's position. -/
def perror (s : PState) (msg : String) : ParseErr :=
  .synErr ("Erro de sintaxe na posição " ++
    toString (getCurrentToken s).position ++ ": " ++ msg)

/-- `Parser.consume(expectedType)`. -/
def consume (s : PState) (expected : Tok) : Except ParseErr (Token × PState) :=
  let token := getCurrentToken s
  if token.type ≠ expected then
    .error (perror s ("Esperado " ++ tokName expected ++ ", encontrado " ++
      tokName token.type))
  else .ok (token, { s with idx := s.idx + 1 })

/-- `Parser.consume()` with no expected kind: always advances. -/
def consumeAny (s : PState) : Token × PState :=
  (getCurrentToken s, { s with idx := s.idx + 1 })

/-- `Parser.match(...types)`. -/
def matchTok (s : PState) (types : List Tok) : Bool :=
  types.contains (getCurrentToken s).type

/-- The string payload of a token value (identifier text, operator text). -/
def valStr : Value → String
  | .str s => s
  | v => jsToString v

/-- `this.tokens[i]?.type === t`, with the optional-chaining miss as false. -/
def tokTypeAtIs (s : PState) (i : Nat) (t : Tok) : Bool :=
  match s.tokens.get? i with
  | some tk => tk.type == t
  | none => false

end TagonJS
namespace TagonJS

/-- The optional-direction step of `parseOrderByClause`'s term loop: a
following identifier from the fixed vocabulary selects the direction and is
consumed; any other identifier (or non-identifier) leaves the direction
ascending and consumes nothing. -/
def orderDirectionStep (s : PState) : String × PState :=
  if matchTok s [.IDENTIFIER] then
    let token := getCurrentToken s
    if valStr token.value == "asc" || valStr token.value == "crescente" then
      ("ASC", (consumeAny s).2)
    else if valStr token.value == "desc" ||
        valStr token.value == "decrescente" then
      ("DESC", (consumeAny s).2)
    else ("ASC", s)
  else ("ASC", s)

mutual

/-- Body of `Parser.parse`: loop statements until EOF, consuming optional
semicolons between them. -/
def parseProgramAux : Nat → PState → List Statement →
    Except ParseErr (List Statement × PState)
  | 0, _, _ => .error .fuelOut
  | fuel + 1, s, acc =>
    if matchTok s [.EOF] then .ok (acc, s)
    else do
      let (statement, s) ← parseStatement fuel s
      let acc := acc ++ [statement]
      let s := if matchTok s [.SEMICOLON] then (consumeAny s).2 else s
      parseProgramAux fuel s acc

/-- `Parser.parseStatement`: dispatch on the leading token kind. -/
def parseStatement : Nat → PState → Except ParseErr (Statement × PState)
  | 0, _ => .error .fuelOut
  | fuel + 1, s =>
    let token := getCurrentToken s
    match token.type with
    | .SELECT => parseSelectStatement fuel s
    | .CREATE => parseCreateStatement fuel s
    | .INSERT => parseInsertStatement fuel s
    | .UPDATE => parseUpdateStatement fuel s
    | .DELETE => parseDeleteStatement fuel s
    | _ =>
        .error (perror s ("Comando não reconhecido: " ++ jsToString token.value))

/-- `Parser.parseSelectStatement`. -/
def parseSelectStatement : Nat → PState → Except ParseErr (Statement × PState)
  | 0, _ => .error .fuelOut
  | fuel + 1, s => do
    let (_, s) ← consume s .SELECT
    let (selectList, s) ← parseSelectListAux fuel s []
    let (_, s) ← consume s .FROM
    let (fromClause, s) ← parseFromClause fuel s
    let (joinClauses, s) ← parseJoinsAux fuel s []
    let (whereCond, s) ←
      if matchTok s [.WHERE] then do
        let (w, s) ← parseWhereClause fuel s
        pure (some w, s)
      else pure (none, s)
    let (groupBy, s) ←
      if matchTok s [.GROUP] then do
        let (g, s) ← parseGroupByClause fuel s
        pure (some g, s)
      else pure (none, s)
    let (orderBy, s) ←
      if matchTok s [.ORDER] then do
        let (o, s) ← parseOrderByClause fuel s
        pure (some o, s)
      else pure (none, s)
    pure (.select selectList fromClause whereCond joinClauses orderBy groupBy, s)

/-- `Parser.parseSelectList` as its do-while loop. -/
def parseSelectListAux : Nat → PState → List ColumnExpr →
    Except ParseErr (List ColumnExpr × PState)
  | 0, _, _ => .error .fuelOut
  | fuel + 1, s, acc => do
    let (acc, s) ←
      if matchTok s [.ASTERISK] then do
        let (_, s) := consumeAny s
        if s.idx > 0 ∧ tokTypeAtIs s (s.idx - 2) .IDENTIFIER ∧
            tokTypeAtIs s (s.idx - 2) .DOT then
          let tableName := valStr (match s.tokens.get? (s.idx - 3) with
            | some tk => tk.value
            | none => Value.undef)
          pure (acc ++ [ColumnExpr.mk (.all (some tableName)) none], s)
        else
          pure (acc ++ [ColumnExpr.mk (.all none) none], s)
      else do
        let (expression, s) ← parseExpression fuel s
        if matchTok s [.IDENTIFIER] ∧
            ¬ matchTok s [.FROM, .WHERE, .ORDER, .GROUP] then do
          let (a, s) ← consume s .IDENTIFIER
          pure (acc ++ [ColumnExpr.mk (.expr expression)
            (some (valStr a.value))], s)
        else
          pure (acc ++ [ColumnExpr.mk (.expr expression) none], s)
    if matchTok s [.COMMA] then
      parseSelectListAux fuel (consumeAny s).2 acc
    else
      pure (acc, s)

/-- `Parser.parseFromClause`. -/
def parseFromClause : Nat → PState → Except ParseErr (FromClauseA × PState)
  | 0, _ => .error .fuelOut
  | _ + 1, s => do
    let (t, s) ← consume s .IDENTIFIER
    let tableName := valStr t.value
    if matchTok s [.IDENTIFIER] ∧
        ¬ matchTok s [.WHERE, .JOIN, .ORDER, .GROUP] then do
      let (a, s) ← consume s .IDENTIFIER
      pure (FromClauseA.mk tableName (some (valStr a.value)), s)
    else
      pure (FromClauseA.mk tableName none, s)

/-- The `while` collecting join clauses in `parseSelectStatement`. -/
def parseJoinsAux : Nat → PState → List JoinClauseA →
    Except ParseErr (List JoinClauseA × PState)
  | 0, _, _ => .error .fuelOut
  | fuel + 1, s, acc =>
    if matchTok s [.JOIN, .INNER, .LEFT, .RIGHT] then do
      let (jc, s) ← parseJoinClause fuel s
      parseJoinsAux fuel s (acc ++ [jc])
    else .ok (acc, s)

/-- `Parser.parseJoinClause`. -/
def parseJoinClause : Nat → PState → Except ParseErr (JoinClauseA × PState)
  | 0, _ => .error .fuelOut
  | fuel + 1, s => do
    let (joinType, s) :=
      if matchTok s [.INNER, .LEFT, .RIGHT] then
        let (t, s) := consumeAny s
        (tokName t.type, s)
      else ("INNER", s)
    let (_, s) ← consume s .JOIN
    let (t, s) ← consume s .IDENTIFIER
    let tableName := valStr t.value
    let (aliasName, s) ←
      if matchTok s [.IDENTIFIER] ∧ ¬ matchTok s [.ON] then do
        let (a, s) ← consume s .IDENTIFIER
        pure (some (valStr a.value), s)
      else pure (none, s)
    let (_, s) ← consume s .ON
    let (onCondition, s) ← parseExpression fuel s
    pure (JoinClauseA.mk joinType tableName onCondition aliasName, s)

/-- `Parser.parseWhereClause`. -/
def parseWhereClause : Nat → PState → Except ParseErr (Expr × PState)
  | 0, _ => .error .fuelOut
  | fuel + 1, s => do
    let (_, s) ← consume s .WHERE
    parseExpression fuel s

/-- `Parser.parseOrderByClause` up to its ordering-term loop. -/
def parseOrderByClause : Nat → PState →
    Except ParseErr (List OrderByExprA × PState)
  | 0, _ => .error .fuelOut
  | fuel + 1, s => do
    let (_, s) ← consume s .ORDER
    let (_, s) ← consume s .BY
    parseOrderByAux fuel s []

/-- The ordering-term loop: an expression followed by an optional direction
word from the fixed vocabulary; any other trailing identifier leaves the
direction ascending and is not consumed. -/
def parseOrderByAux : Nat → PState → List OrderByExprA →
    Except ParseErr (List OrderByExprA × PState)
  | 0, _, _ => .error .fuelOut
  | fuel + 1, s, acc => do
    let (expression, s) ← parseExpression fuel s
    let (direction, s) := orderDirectionStep s
    let acc := acc ++ [OrderByExprA.mk expression direction]
    if matchTok s [.COMMA] then
      parseOrderByAux fuel (consumeAny s).2 acc
    else .ok (acc, s)

/-- `Parser.parseGroupByClause`. -/
def parseGroupByClause : Nat → PState → Except ParseErr (List Expr × PState)
  | 0, _ => .error .fuelOut
  | fuel + 1, s => do
    let (_, s) ← consume s .GROUP
    let (_, s) ← consume s .BY
    parseGroupByAux fuel s []

/-- The group-expression loop. -/
def parseGroupByAux : Nat → PState → List Expr →
    Except ParseErr (List Expr × PState)
  | 0, _, _ => .error .fuelOut
  | fuel + 1, s, acc => do
    let (e, s) ← parseExpression fuel s
    let acc := acc ++ [e]
    if matchTok s [.COMMA] then
      parseGroupByAux fuel (consumeAny s).2 acc
    else .ok (acc, s)

/-- `Parser.parseExpression`. -/
def parseExpression : Nat → PState → Except ParseErr (Expr × PState)
  | 0, _ => .error .fuelOut
  | fuel + 1, s => parseOrExpression fuel s

/-- `Parser.parseOrExpression`. -/
def parseOrExpression : Nat → PState → Except ParseErr (Expr × PState)
  | 0, _ => .error .fuelOut
  | fuel + 1, s => do
    let (left, s) ← parseAndExpression fuel s
    parseOrAux fuel s left

/-- The `while (match OR)` loop. -/
def parseOrAux : Nat → PState → Expr → Except ParseErr (Expr × PState)
  | 0, _, _ => .error .fuelOut
  | fuel + 1, s, left =>
    if matchTok s [.OR] then do
      let (opTok, s) := consumeAny s
      let (right, s) ← parseAndExpression fuel s
      parseOrAux fuel s (.bin left (valStr opTok.value) right)
    else .ok (left, s)

/-- `Parser.parseAndExpression`. -/
def parseAndExpression : Nat → PState → Except ParseErr (Expr × PState)
  | 0, _ => .error .fuelOut
  | fuel + 1, s => do
    let (left, s) ← parseComparisonExpression fuel s
    parseAndAux fuel s left

/-- The `while (match AND)` loop. -/
def parseAndAux : Nat → PState → Expr → Except ParseErr (Expr × PState)
  | 0, _, _ => .error .fuelOut
  | fuel + 1, s, left =>
    if matchTok s [.AND] then do
      let (opTok, s) := consumeAny s
      let (right, s) ← parseComparisonExpression fuel s
      parseAndAux fuel s (.bin left (valStr opTok.value) right)
    else .ok (left, s)

/-- `Parser.parseComparisonExpression`: non-chaining, at most one
comparator. -/
def parseComparisonExpression : Nat → PState → Except ParseErr (Expr × PState)
  | 0, _ => .error .fuelOut
  | fuel + 1, s => do
    let (left, s) ← parsePrimaryExpression fuel s
    if matchTok s [.EQUALS, .NOT_EQUALS, .LESS_THAN, .GREATER_THAN,
        .LESS_EQUAL, .GREATER_EQUAL, .LIKE] then do
      let (opTok, s) := consumeAny s
      let (right, s) ← parsePrimaryExpression fuel s
      pure (.bin left (valStr opTok.value) right, s)
    else pure (left, s)

/-- `Parser.parsePrimaryExpression`. -/
def parsePrimaryExpression : Nat → PState → Except ParseErr (Expr × PState)
  | 0, _ => .error .fuelOut
  | fuel + 1, s =>
    let token := getCurrentToken s
    match token.type with
    | .NUMBER =>
        let (_, s2) := consumeAny s
        .ok (.lit token.value "NUMBER", s2)
    | .STRING =>
        let (_, s2) := consumeAny s
        .ok (.lit token.value "STRING", s2)
    | .IDENTIFIER => parseIdentifierExpression fuel s
    | .OPEN_PAREN => do
        let (_, s2) := consumeAny s
        let (expression, s3) ← parseExpression fuel s2
        let (_, s4) ← consume s3 .CLOSE_PAREN
        pure (expression, s4)
    | _ =>
        .error (perror s ("Expressão inesperada: " ++ jsToString token.value))

/-- `Parser.parseIdentifierExpression`: bare name or `table.column`. -/
def parseIdentifierExpression : Nat → PState → Except ParseErr (Expr × PState)
  | 0, _ => .error .fuelOut
  | _ + 1, s => do
    let (t, s) ← consume s .IDENTIFIER
    let name := valStr t.value
    if matchTok s [.DOT] then do
      let (_, s) := consumeAny s
      let (c, s) ← consume s .IDENTIFIER
      pure (.ident (valStr c.value) (some name), s)
    else
      pure (.ident name none, s)

/-- `Parser.parseCreateStatement`. -/
def parseCreateStatement : Nat → PState → Except ParseErr (Statement × PState)
  | 0, _ => .error .fuelOut
  | fuel + 1, s => do
    let (_, s) ← consume s .CREATE
    if matchTok s [.DATABASE] then parseCreateDatabaseStatement fuel s
    else if matchTok s [.TABLE] then parseCreateTableStatement fuel s
    else .error (perror s "Esperado \"banco\" ou \"tabela\" após \"criar\"")

/-- `Parser.parseCreateDatabaseStatement`. -/
def parseCreateDatabaseStatement : Nat → PState →
    Except ParseErr (Statement × PState)
  | 0, _ => .error .fuelOut
  | _ + 1, s => do
    let (_, s) ← consume s .DATABASE
    let (t, s) ← consume s .IDENTIFIER
    pure (.createDatabase (valStr t.value), s)

/-- `Parser.parseCreateTableStatement`. -/
def parseCreateTableStatement : Nat → PState →
    Except ParseErr (Statement × PState)
  | 0, _ => .error .fuelOut
  | fuel + 1, s => do
    let (_, s) ← consume s .TABLE
    let (t, s) ← consume s .IDENTIFIER
    let tableName := valStr t.value
    let (_, s) ← consume s .OPEN_PAREN
    let (columns, tableConstraints, s) ← parseCreateTableEntriesAux fuel s [] []
    let (_, s) ← consume s .CLOSE_PAREN
    pure (.createTable tableName columns tableConstraints, s)

/-- The entry loop of CREATE TABLE: table-level constraint or column
definition, comma-separated. -/
def parseCreateTableEntriesAux : Nat → PState → List ColumnDefA →
    List TableConstraintA →
    Except ParseErr (List ColumnDefA × List TableConstraintA × PState)
  | 0, _, _, _ => .error .fuelOut
  | fuel + 1, s, cols, tcs => do
    let (cols, tcs, s) ←
      if matchTok s [.PRIMARY, .FOREIGN, .UNIQUE] then do
        let (c, s) ← parseTableConstraint fuel s
        pure (cols, tcs ++ [c], s)
      else do
        let (c, s) ← parseColumnDefinition fuel s
        pure (cols ++ [c], tcs, s)
    if matchTok s [.COMMA] then
      parseCreateTableEntriesAux fuel (consumeAny s).2 cols tcs
    else .ok (cols, tcs, s)

/-- `Parser.parseColumnDefinition`. -/
def parseColumnDefinition : Nat → PState →
    Except ParseErr (ColumnDefA × PState)
  | 0, _ => .error .fuelOut
  | fuel + 1, s => do
    let (t, s) ← consume s .IDENTIFIER
    let columnName := valStr t.value
    let (_, s) ← consume s .COLON
    let (columnType, s) ← parseColumnType fuel s
    let (constraints, defaultValue, autoIncrement, s) ←
      parseColumnConstraintsAux fuel s [] none false
    pure (ColumnDefA.mk columnName columnType constraints defaultValue
      autoIncrement, s)

/-- The column-constraint loop of `parseColumnDefinition`. -/
def parseColumnConstraintsAux : Nat → PState → List ConstraintDefA →
    Option Expr → Bool →
    Except ParseErr (List ConstraintDefA × Option Expr × Bool × PState)
  | 0, _, _, _, _ => .error .fuelOut
  | fuel + 1, s, cs, dv, ai =>
    if matchTok s [.PRIMARY, .UNIQUE, .NOT, .AUTO, .DEFAULT] then
      if matchTok s [.PRIMARY] then do
        let (_, s) := consumeAny s
        let (_, s) ← consume s .KEY
        parseColumnConstraintsAux fuel s
          (cs ++ [ConstraintDefA.mk "PRIMARY_KEY" none]) dv ai
      else if matchTok s [.UNIQUE] then do
        let (_, s) := consumeAny s
        parseColumnConstraintsAux fuel s
          (cs ++ [ConstraintDefA.mk "UNIQUE" none]) dv ai
      else if matchTok s [.NOT] then do
        let (_, s) := consumeAny s
        let (_, s) ← consume s .NULL
        parseColumnConstraintsAux fuel s
          (cs ++ [ConstraintDefA.mk "NOT_NULL" none]) dv ai
      else if matchTok s [.AUTO] then do
        let (_, s) := consumeAny s
        let (_, s) ← consume s .INCREMENT
        parseColumnConstraintsAux fuel s
          (cs ++ [ConstraintDefA.mk "AUTO_INCREMENT" none]) dv true
      else do
        let (_, s) := consumeAny s
        let (e, s) ← parseExpression fuel s
        parseColumnConstraintsAux fuel s
          (cs ++ [ConstraintDefA.mk "DEFAULT" (some e)]) (some e) ai
    else .ok (cs, dv, ai, s)

/-- `Parser.parseColumnType` (plain type, `uuid`, or sized type). -/
def parseColumnType : Nat → PState → Except ParseErr (String × PState)
  | 0, _ => .error .fuelOut
  | _ + 1, s => do
    let (t, s) ← consume s .IDENTIFIER
    let typeName := valStr t.value
    if typeName == "uuid" then pure ("uuid", s)
    else if matchTok s [.OPEN_PAREN] then do
      let (_, s) := consumeAny s
      let (n, s) ← consume s .NUMBER
      let (_, s) ← consume s .CLOSE_PAREN
      pure (typeName ++ "(" ++ jsToString n.value ++ ")", s)
    else pure (typeName, s)

/-- `Parser.parseTableConstraint`. -/
def parseTableConstraint : Nat → PState →
    Except ParseErr (TableConstraintA × PState)
  | 0, _ => .error .fuelOut
  | _ + 1, s =>
    if matchTok s [.PRIMARY] then do
      let (_, s) := consumeAny s
      let (_, s) ← consume s .KEY
      let (_, s) ← consume s .OPEN_PAREN
      let (c, s) ← consume s .IDENTIFIER
      let (_, s) ← consume s .CLOSE_PAREN
      pure (TableConstraintA.mk "PRIMARY_KEY" (valStr c.value) none none, s)
    else if matchTok s [.FOREIGN] then do
      let (_, s) := consumeAny s
      let (_, s) ← consume s .KEY
      let (_, s) ← consume s .OPEN_PAREN
      let (c, s) ← consume s .IDENTIFIER
      let (_, s) ← consume s .CLOSE_PAREN
      let (_, s) ← consume s .REFERENCES
      let (rt, s) ← consume s .IDENTIFIER
      let (_, s) ← consume s .OPEN_PAREN
      let (rc, s) ← consume s .IDENTIFIER
      let (_, s) ← consume s .CLOSE_PAREN
      pure (TableConstraintA.mk "FOREIGN_KEY" (valStr c.value)
        (some (valStr rt.value)) (some (valStr rc.value)), s)
    else if matchTok s [.UNIQUE] then do
      let (_, s) := consumeAny s
      let (_, s) ← consume s .OPEN_PAREN
      let (c, s) ← consume s .IDENTIFIER
      let (_, s) ← consume s .CLOSE_PAREN
      pure (TableConstraintA.mk "UNIQUE" (valStr c.value) none none, s)
    else .error (perror s "Constraint de tabela não reconhecida")

/-- `Parser.parseInsertStatement`. -/
def parseInsertStatement : Nat → PState → Except ParseErr (Statement × PState)
  | 0, _ => .error .fuelOut
  | fuel + 1, s => do
    let (_, s) ← consume s .INSERT
    let (_, s) ← consume s .INTO
    let (t, s) ← consume s .IDENTIFIER
    let tableName := valStr t.value
    let (columns, s) ←
      if matchTok s [.OPEN_PAREN] then do
        let (_, s) := consumeAny s
        let (cols, s) ← parseInsertColumnsAux fuel s []
        let (_, s) ← consume s .CLOSE_PAREN
        pure (some cols, s)
      else pure (none, s)
    let (_, s) ← consume s .VALUES
    let (_, s) ← consume s .OPEN_PAREN
    let (values, s) ← parseInsertValuesAux fuel s []
    let (_, s) ← consume s .CLOSE_PAREN
    pure (.insert tableName columns values, s)

/-- The INSERT column-name loop. -/
def parseInsertColumnsAux : Nat → PState → List String →
    Except ParseErr (List String × PState)
  | 0, _, _ => .error .fuelOut
  | fuel + 1, s, acc => do
    let (c, s) ← consume s .IDENTIFIER
    let acc := acc ++ [valStr c.value]
    if matchTok s [.COMMA] then parseInsertColumnsAux fuel (consumeAny s).2 acc
    else .ok (acc, s)

/-- The INSERT value-expression loop. -/
def parseInsertValuesAux : Nat → PState → List Expr →
    Except ParseErr (List Expr × PState)
  | 0, _, _ => .error .fuelOut
  | fuel + 1, s, acc => do
    let (e, s) ← parseExpression fuel s
    let acc := acc ++ [e]
    if matchTok s [.COMMA] then parseInsertValuesAux fuel (consumeAny s).2 acc
    else .ok (acc, s)

/-- `Parser.parseUpdateStatement`. -/
def parseUpdateStatement : Nat → PState → Except ParseErr (Statement × PState)
  | 0, _ => .error .fuelOut
  | fuel + 1, s => do
    let (_, s) ← consume s .UPDATE
    let (t, s) ← consume s .IDENTIFIER
    let tableName := valStr t.value
    let (_, s) ← consume s .SET
    let (assignments, s) ← parseAssignmentsAux fuel s []
    let (whereCond, s) ←
      if matchTok s [.WHERE] then do
        let (w, s) ← parseWhereClause fuel s
        pure (some w, s)
      else pure (none, s)
    pure (.update tableName assignments whereCond, s)

/-- The UPDATE assignment loop. -/
def parseAssignmentsAux : Nat → PState → List (String × Expr) →
    Except ParseErr (List (String × Expr) × PState)
  | 0, _, _ => .error .fuelOut
  | fuel + 1, s, acc => do
    let (c, s) ← consume s .IDENTIFIER
    let (_, s) ← consume s .EQUALS
    let (v, s) ← parseExpression fuel s
    let acc := acc ++ [(valStr c.value, v)]
    if matchTok s [.COMMA] then parseAssignmentsAux fuel (consumeAny s).2 acc
    else .ok (acc, s)

/-- `Parser.parseDeleteStatement`. -/
def parseDeleteStatement : Nat → PState → Except ParseErr (Statement × PState)
  | 0, _ => .error .fuelOut
  | fuel + 1, s => do
    let (_, s) ← consume s .DELETE
    let (_, s) ← consume s .FROM
    let (t, s) ← consume s .IDENTIFIER
    let (whereCond, s) ←
      if matchTok s [.WHERE] then do
        let (w, s) ← parseWhereClause fuel s
        pure (some w, s)
      else pure (none, s)
    pure (.delete (valStr t.value) whereCond, s)

end

/-- `Parser.parse` on a token list: loop statements, then return the single
statement or the list. -/
def parseTokens (fuel : Nat) (tokens : List Token) : Except ParseErr ParseOut := do
  let (statements, _) ← parseProgramAux fuel (PState.mk tokens 0) []
  match statements with
  | [st] => pure (.one st)
  | _ => pure (.many statements)

/-- Parse with a fuel bound that is always sufficient for the token list
(every parser step either consumes a token or descends into a strictly
smaller grammar production). -/
def parse (tokens : List Token) : Except ParseErr ParseOut :=
  parseTokens (tokens.length * 16 + 16) tokens

end TagonJS
namespace TagonJS

/-- `@tipo` / `@constraints` attributes of a stored column. -/
structure ColMeta where
  tipo : String
  constraintsStr : String
deriving Repr, DecidableEq

/-- A stored table: ordered column metadata, ordered record map (keys are
the generated `reg_N` identifiers), and table-level constraints. -/
structure TableData where
  colunas : List (String × ColMeta)
  registros : List (String × Obj)
  constraints : List TableConstraintA
deriving Repr, DecidableEq

/-- A stored database: its tables. -/
structure Database where
  tabelas : List (String × TableData)
deriving Repr, DecidableEq

/-- The whole store (one entry per database file). -/
structure Storage where
  bancos : List (String × Database)
deriving Repr, DecidableEq

/-- The result object returned by the executor (`resultados` is empty when
the source omits the field). -/
structure ExecResult where
  sucesso : Bool
  mensagem : String
  resultados : List Obj
deriving Repr, DecidableEq

/-- `StorageManager.databaseExists`. -/
def databaseExists (st : Storage) (databaseName : String) : Bool :=
  st.bancos.any (fun kv => kv.1 == databaseName)

/-- `StorageManager.loadDatabase`. -/
def loadDatabase (st : Storage) (databaseName : String) : Option Database :=
  (st.bancos.find? (fun kv => kv.1 == databaseName)).map (fun kv => kv.2)

/-- `StorageManager.loadTable`. -/
def loadTable (st : Storage) (databaseName tableName : String) :
    Option TableData :=
  match loadDatabase st databaseName with
  | none => none
  | some db => (db.tabelas.find? (fun kv => kv.1 == tableName)).map
      (fun kv => kv.2)

/-- `StorageManager.saveDatabase`. -/
def saveDatabase (st : Storage) (databaseName : String) (db : Database) :
    Storage :=
  Storage.mk (mapSet st.bancos databaseName db)

/-- `StorageManager.saveTable`. -/
def saveTable (st : Storage) (databaseName tableName : String)
    (t : TableData) : Except String Storage :=
  match loadDatabase st databaseName with
  | none => .error ("Banco " ++ databaseName ++ " não encontrado")
  | some db =>
      .ok (saveDatabase st databaseName
        (Database.mk (mapSet db.tabelas tableName t)))

/-- `StorageManager.createDatabase`. -/
def createDatabaseSM (st : Storage) (databaseName : String) :
    Storage × ExecResult :=
  if databaseExists st databaseName then
    (st, ExecResult.mk false ("❌ Banco " ++ databaseName ++ " já existe") [])
  else
    (Storage.mk (st.bancos ++ [(databaseName, Database.mk [])]),
     ExecResult.mk true ("✅ Banco " ++ databaseName ++ " criado com sucesso")
       [])

/-- The `DEFAULT` serialization in `createTable`:
`constraint.options.value.value || constraint.options.value` stringified —
the literal's value when truthy, otherwise the expression object itself
(which stringifies as `[object Object]`). -/
def defaultValToString : Option Expr → String
  | some (.lit v _) => if jsTruthy v then jsToString v else "[object Object]"
  | some _ => "[object Object]"
  | none => "undefined"

/-- The constraint-token strings serialized for one column definition. -/
def constraintStringsOf (colDef : ColumnDefA) : List String :=
  colDef.constraints.foldl (fun acc c =>
    if c.ctype == "PRIMARY_KEY" then acc ++ ["PRIMARY_KEY"]
    else if c.ctype == "UNIQUE" then acc ++ ["UNIQUE"]
    else if c.ctype == "NOT_NULL" then acc ++ ["NOT_NULL"]
    else if c.ctype == "AUTO_INCREMENT" then acc ++ ["AUTO_INCREMENT"]
    else if c.ctype == "DEFAULT" then
      acc ++ ["DEFAULT:" ++ defaultValToString c.dval]
    else acc) []

/-- `StorageManager.createTable`. -/
def createTableSM (st : Storage) (databaseName tableName : String)
    (columnDefinitions : List ColumnDefA)
    (tableConstraints : List TableConstraintA) :
    Except String (Storage × ExecResult) :=
  match loadDatabase st databaseName with
  | none => .error ("Banco " ++ databaseName ++ " não encontrado")
  | some db =>
    if db.tabelas.any (fun kv => kv.1 == tableName) then
      .ok (st, ExecResult.mk false ("❌ Tabela " ++ tableName ++ " já existe")
        [])
    else
      let columns := columnDefinitions.foldl (fun acc colDef =>
        mapSet acc colDef.name (ColMeta.mk colDef.type
          (strJoin "," (constraintStringsOf colDef)))) []
      let tableStructure := TableData.mk columns [] tableConstraints
      .ok (saveDatabase st databaseName
            (Database.mk (mapSet db.tabelas tableName tableStructure)),
        ExecResult.mk true ("✅ Tabela " ++ tableName ++ " criada com sucesso")
          [])

/-- JS `+` on the engine's scalars: numeric addition, or string
concatenation when either side is a string.  A `NaN` outcome is modelled as
null (no claim exercises it). -/
def jsAdd (a b : Value) : Value :=
  match a, b with
  | .num x, .num y => .num (decAdd x y)
  | _, _ =>
      if isStr a || isStr b then .str (jsToString a ++ jsToString b)
      else match toNumber a, toNumber b with
        | some x, some y => .num (decAdd x y)
        | _, _ => .null

/-- JS `-` with numeric coercion; `NaN` modelled as null. -/
def jsSub (a b : Value) : Value :=
  match toNumber a, toNumber b with
  | some x, some y => .num (decSub x y)
  | _, _ => .null

/-- JS `*` with numeric coercion; `NaN` modelled as null. -/
def jsMul (a b : Value) : Value :=
  match toNumber a, toNumber b with
  | some x, some y => .num (decMul x y)
  | _, _ => .null

/-- JS `/` with numeric coercion; division by zero (Infinity/NaN in JS) and
inexact quotients are modelled as null (no claim exercises them). -/
def jsDiv (a b : Value) : Value :=
  match toNumber a, toNumber b with
  | some x, some y =>
      match decDiv x y with
      | some q => .num q
      | none => .null
  | _, _ => .null

/-- The anchored, case-insensitive matcher equivalent to the regex that
`evaluateLike` compiles: metacharacters are escaped (hence literal), `%`
becomes any sequence, `_` any single character. -/
def likeMatchAux : List Char → List Char → Bool
  | [], [] => true
  | [], _ :: _ => false
  | '%' :: ps, cs =>
      likeMatchAux ps cs ||
        (match cs with
         | [] => false
         | _ :: cs2 => likeMatchAux ('%' :: ps) cs2)
  | '_' :: ps, _ :: cs => likeMatchAux ps cs
  | '_' :: _, [] => false
  | p :: ps, c :: cs => p.toLower == c.toLower && likeMatchAux ps cs
  | _ :: _, [] => false
termination_by ps cs => (ps.length, cs.length)

/-- `QueryExecutor.evaluateLike`: non-string operands never match; string
operands are matched against the SQL-LIKE pattern. -/
def evaluateLike (value pattern : Value) : Bool :=
  match value, pattern with
  | .str s, .str p => likeMatchAux p.toList s.toList
  | _, _ => false

/-- `QueryExecutor.evaluateExpression`. -/
def evaluateExpression : Expr → Obj → Except String Value
  | .lit v _, _ => .ok v
  | .ident name tableName, row =>
      let columnName := match tableName with
        | some t => t ++ "." ++ name
        | none => name
      .ok (if objGet row columnName ≠ Value.undef then objGet row columnName
        else objGet row name)
  | .bin l op r, row => do
      let left ← evaluateExpression l row
      let right ← evaluateExpression r row
      if op == "+" then pure (jsAdd left right)
      else if op == "-" then pure (jsSub left right)
      else if op == "*" then pure (jsMul left right)
      else if op == "/" then pure (jsDiv left right)
      else .error ("Operador matemático não suportado: " ++ op)

/-- `QueryExecutor.evaluateCondition`.  Both operands are evaluated as value
expressions before the operator dispatch (so a boolean connective whose
operand is itself a comparison fails in the eager evaluation, exactly as in
the source). -/
def evaluateCondition : Expr → Obj → Except String Bool
  | .bin l op r, row => do
      let leftValue ← evaluateExpression l row
      let rightValue ← evaluateExpression r row
      if op == "=" || op == "equals" then pure (jsEq leftValue rightValue)
      else if op == "!=" || op == "not_equals" then
        pure (!(jsEq leftValue rightValue))
      else if op == "<" || op == "less_than" then
        pure (jsLt leftValue rightValue)
      else if op == ">" || op == "greater_than" then
        pure (jsGt leftValue rightValue)
      else if op == "<=" || op == "less_equal" then
        pure (jsLe leftValue rightValue)
      else if op == ">=" || op == "greater_equal" then
        pure (jsGe leftValue rightValue)
      else if op == "like" || op == "como" then
        pure (evaluateLike leftValue rightValue)
      else if op == "e" || op == "and" then do
        let a ← evaluateCondition l row
        if a then evaluateCondition r row else pure false
      else if op == "ou" || op == "or" then do
        let a ← evaluateCondition l row
        if a then pure true else evaluateCondition r row
      else .error ("Operador não suportado: " ++ op)
  | _, _ => .ok true

/-- `QueryExecutor.convertTableToResultSet`: each record becomes a row
carrying, per field, the table-qualified key then the bare key. -/
def convertTableToResultSet (tableData : TableData) (tableName : String)
    (aliasName : Option String) : List Obj :=
  let effectiveName := aliasName.getD tableName
  if tableData.registros.isEmpty then []
  else tableData.registros.map (fun kv =>
    kv.2.foldl (fun row cv =>
      mapSet (mapSet row (effectiveName ++ "." ++ cv.1) cv.2) cv.1 cv.2) [])

/-- The null-extension row built for an unmatched LEFT-join left row: the
keys of the FIRST right-result row that carry the right table's prefix,
each set to null (empty when the right result set is empty). -/
def nullRowOf (rightResultSet : List Obj) (jc : JoinClauseA) : Obj :=
  let rightTableName := jc.aliasName.getD jc.tableName
  let keys : List String := match rightResultSet.head? with
    | some r0 => (objKeys r0).filter
        (fun k => strStartsWith k (rightTableName ++ "."))
    | none => []
  keys.foldl (fun nr k => mapSet nr k Value.null) []

/-- The body of `performJoin`'s outer loop for one left row. -/
def joinOneLeftRow (rightResultSet : List Obj) (jc : JoinClauseA)
    (leftRow : Obj) : Except String (List Obj) := do
  let matchRows ← rightResultSet.foldlM (fun acc rightRow => do
    let combinedRow := mergeObj leftRow rightRow
    let b ← evaluateCondition jc.onCondition combinedRow
    pure (if b then acc ++ [mergeObj leftRow rightRow] else acc)) []
  if matchRows.length > 0 then pure matchRows
  else if jc.joinType == "LEFT" then
    pure [mergeObj leftRow (nullRowOf rightResultSet jc)]
  else pure []

/-- `QueryExecutor.performJoin` (nested-loop join). -/
def performJoin (leftResultSet rightResultSet : List Obj)
    (jc : JoinClauseA) : Except String (List Obj) :=
  leftResultSet.foldlM (fun acc leftRow => do
    let rows ← joinOneLeftRow rightResultSet jc leftRow
    pure (acc ++ rows)) []

/-- `QueryExecutor.applyWhere`. -/
def applyWhere (resultSet : List Obj) (condition : Expr) :
    Except String (List Obj) :=
  resultSet.foldlM (fun acc row => do
    let b ← evaluateCondition condition row
    pure (if b then acc ++ [row] else acc)) []

/-- The composite group key: the group expressions' values stringified and
joined with a pipe character (`Array.prototype.join` stringifies each
element). -/
def computeGroupKey (groupBy : List Expr) (row : Obj) :
    Except String String := do
  let vals ← groupBy.mapM (fun e => evaluateExpression e row)
  pure (strJoin "|" (vals.map jsToString))

/-- `groups.get(k).push(row)` / `groups.set(k, [row])` on the
insertion-ordered group map. -/
def addToGroups (groups : List (String × List Obj)) (k : String) (row : Obj) :
    List (String × List Obj) :=
  if groups.any (fun g => g.1 == k) then
    groups.map (fun g => if g.1 == k then (g.1, g.2 ++ [row]) else g)
  else groups ++ [(k, [row])]

/-- `QueryExecutor.applyGroupBy`: bucket rows by composite key, then return
each group's first row. -/
def applyGroupBy (resultSet : List Obj) (groupBy : List Expr) :
    Except String (List Obj) := do
  let groups ← resultSet.foldlM (fun gs row => do
    let k ← computeGroupKey groupBy row
    pure (addToGroups gs k row)) []
  pure (groups.filterMap (fun g => g.2.head?))

/-- `QueryExecutor.getExpressionName`. -/
def getExpressionName : Expr → String
  | .ident name _ => name
  | .lit v _ => jsToString v
  | _ => "expressao"

/-- The projection of one row through the select list. -/
def projectRow (selectList : List ColumnExpr) (row : Obj) :
    Except String Obj :=
  selectList.foldlM (fun projectedRow columnExpr => do
    match columnExpr.expression with
    | .all (some tableName) =>
        let pre := tableName ++ "."
        pure (row.foldl (fun pr kv =>
          if strStartsWith kv.1 pre then
            mapSet pr (strDrop kv.1 (strLen pre)) kv.2
          else pr) projectedRow)
    | .all none =>
        pure (mergeObj projectedRow row)
    | .expr e => do
        let value ← evaluateExpression e row
        let columnName := columnExpr.aliasName.getD (getExpressionName e)
        pure (mapSet projectedRow columnName value)) []

/-- `QueryExecutor.applyProjection`. -/
def applyProjection (resultSet : List Obj) (selectList : List ColumnExpr) :
    Except String (List Obj) :=
  if resultSet.isEmpty then .ok resultSet
  else resultSet.mapM (projectRow selectList)

/-- The multi-key comparator of `applyOrderBy` on pre-evaluated keys. -/
def cmpOrderKeys : List (Value × String) → List (Value × String) → Int
  | [], _ => 0
  | _ :: _, [] => 0
  | (av, d) :: as2, (bv, _) :: bs =>
      let comparison : Int := if jsLt av bv then -1 else if jsGt av bv then 1
        else 0
      if comparison ≠ 0 then (if d == "DESC" then -comparison else comparison)
      else cmpOrderKeys as2 bs

/-- A stable insertion sort (V8's `Array.prototype.sort` is stable). -/
def stableInsert {α : Type} (le : α → α → Bool) (x : α) :
    List α → List α
  | [] => [x]
  | y :: ys => if le y x then y :: stableInsert le x ys else x :: y :: ys

/-- Stable sort by a boolean "less or equal" relation. -/
def stableSort {α : Type} (le : α → α → Bool) : List α → List α
  | [] => []
  | x :: xs => stableInsert le x (stableSort le xs)

/-- `QueryExecutor.applyOrderBy`.  The source evaluates the key expressions
inside the sort comparator; here the keys are evaluated once per row up
front (the comparator is pure), which agrees with the source whenever the
evaluations succeed. -/
def applyOrderBy (resultSet : List Obj) (orderBy : List OrderByExprA) :
    Except String (List Obj) := do
  let keyed ← resultSet.mapM (fun row => do
    let ks ← orderBy.mapM (fun oe => do
      let v ← evaluateExpression oe.expression row
      pure (v, oe.direction))
    pure (row, ks))
  pure ((stableSort (fun a b => cmpOrderKeys a.2 b.2 ≤ 0) keyed).map
    (fun x => x.1))

/-- `QueryExecutor.validateType`. -/
def validateType (value : Value) (expectedType : String) : Bool :=
  if strLower expectedType == "numero" then isNum value
  else if strLower expectedType == "texto" then isStr value
  else if strLower expectedType == "booleano" then isBool value
  else true

end TagonJS
namespace TagonJS

/-- `QueryExecutor.executeSelect`: load, join, filter, group, project,
order. -/
def executeSelect (st : Storage) (currentDatabase : Option String)
    (selectList : List ColumnExpr) (fromClause : FromClauseA)
    (whereCond : Option Expr) (joinClauses : List JoinClauseA)
    (orderBy : Option (List OrderByExprA)) (groupBy : Option (List Expr)) :
    Except String (Storage × ExecResult) := do
  let db : String ← match currentDatabase with
    | none => Except.error "Nenhum banco selecionado"
    | some d => pure d
  let mainTable : TableData ← match loadTable st db fromClause.tableName with
    | none => Except.error ("Tabela " ++ fromClause.tableName ++
        " não encontrada")
    | some t => pure t
  let rs0 := convertTableToResultSet mainTable fromClause.tableName
    fromClause.aliasName
  let rs1 ← joinClauses.foldlM (fun rs jc => do
    match loadTable st db jc.tableName with
    | none => Except.error ("Tabela " ++ jc.tableName ++ " não encontrada")
    | some jt =>
        performJoin rs (convertTableToResultSet jt jc.tableName jc.aliasName)
          jc) rs0
  let rs2 ← match whereCond with
    | none => pure rs1
    | some c => applyWhere rs1 c
  let rs3 ← match groupBy with
    | none => pure rs2
    | some g => applyGroupBy rs2 g
  let rs4 ← applyProjection rs3 selectList
  let rs5 ← match orderBy with
    | none => pure rs4
    | some o => applyOrderBy rs4 o
  pure (st, ExecResult.mk true
    ("📊 " ++ toString rs5.length ++ " registro(s) encontrado(s)") rs5)

/-- `QueryExecutor.executeInsert`: arity check against the effective column
list, per-value evaluation in an empty-row context and declared-type check,
then the record is stored under `reg_(record count + 1)` and the table is
saved.  The constraint validator is NOT consulted on this path. -/
def executeInsert (st : Storage) (currentDatabase : Option String)
    (tableName : String) (columnsOpt : Option (List String))
    (values : List Expr) : Except String (Storage × ExecResult) := do
  let db : String ← match currentDatabase with
    | none => Except.error "Nenhum banco selecionado"
    | some d => pure d
  let tableData : TableData ← match loadTable st db tableName with
    | none => Except.error ("Tabela " ++ tableName ++ " não encontrada")
    | some t => pure t
  let columns : List String := match columnsOpt with
    | some cs => cs
    | none => tableData.colunas.map (fun kv => kv.1)
  if values.length ≠ columns.length then
    Except.error "Número de valores não corresponde ao número de colunas"
  else do
    let newRecord ← (columns.zip values).foldlM
      (fun (record : Obj) (cv : String × Expr) => do
      let value ← evaluateExpression cv.2 []
      let columnType := (tableData.colunas.find? (fun kv => kv.1 == cv.1)).map
        (fun kv => kv.2.tipo)
      match columnType with
      | some ct =>
          if ¬ validateType value ct then
            Except.error ("Tipo inválido para coluna " ++ cv.1 ++
              ". Esperado: " ++ ct)
          else pure (mapSet record cv.1 value)
      | none => pure (mapSet record cv.1 value)) []
    let nextId := tableData.registros.length + 1
    let newRegs := mapSet tableData.registros ("reg_" ++ toString nextId)
      newRecord
    let st2 ← saveTable st db tableName { tableData with registros := newRegs }
    pure (st2, ExecResult.mk true
      ("✅ Registro inserido na tabela " ++ tableName ++ " com sucesso") [])

/-- `QueryExecutor.executeUpdate`. -/
def executeUpdate (st : Storage) (currentDatabase : Option String)
    (tableName : String) (assignments : List (String × Expr))
    (whereCond : Option Expr) : Except String (Storage × ExecResult) := do
  let db : String ← match currentDatabase with
    | none => Except.error "Nenhum banco selecionado"
    | some d => pure d
  let tableData : TableData ← match loadTable st db tableName with
    | none => Except.error ("Tabela " ++ tableName ++ " não encontrada")
    | some t => pure t
  let (updatedCount, newRegs) ←
    tableData.registros.foldlM
      (fun (acc : Nat × List (String × Obj)) (kv : String × Obj) => do
      let shouldUpdate ← match whereCond with
        | none => pure true
        | some c => evaluateCondition c kv.2
      if shouldUpdate then do
        let record ← assignments.foldlM (fun r av => do
          let newValue ← evaluateExpression av.2 r
          pure (mapSet r av.1 newValue)) kv.2
        pure (acc.1 + 1, acc.2 ++ [(kv.1, record)])
      else pure (acc.1, acc.2 ++ [kv]))
      ((0 : Nat), ([] : List (String × Obj)))
  let st2 ← saveTable st db tableName { tableData with registros := newRegs }
  pure (st2, ExecResult.mk true
    ("✅ " ++ toString updatedCount ++ " registro(s) atualizado(s) na tabela "
      ++ tableName) [])

/-- `QueryExecutor.executeDelete`. -/
def executeDelete (st : Storage) (currentDatabase : Option String)
    (tableName : String) (whereCond : Option Expr) :
    Except String (Storage × ExecResult) := do
  let db : String ← match currentDatabase with
    | none => Except.error "Nenhum banco selecionado"
    | some d => pure d
  let tableData : TableData ← match loadTable st db tableName with
    | none => Except.error ("Tabela " ++ tableName ++ " não encontrada")
    | some t => pure t
  let (deletedCount, remaining) ←
    tableData.registros.foldlM
      (fun (acc : Nat × List (String × Obj)) (kv : String × Obj) => do
      let shouldDelete ← match whereCond with
        | none => pure true
        | some c => evaluateCondition c kv.2
      pure (if shouldDelete then (acc.1 + 1, acc.2)
        else (acc.1, acc.2 ++ [kv])))
      ((0 : Nat), ([] : List (String × Obj)))
  let st2 ← saveTable st db tableName
    { tableData with registros := remaining }
  pure (st2, ExecResult.mk true
    ("✅ " ++ toString deletedCount ++ " registro(s) removido(s) da tabela "
      ++ tableName) [])

/-- `QueryExecutor.executeCreateTable`: the executor forwards only the
column definitions — the statement's table-level constraints are dropped
(`createTable`'s fourth parameter defaults to the empty list). -/
def executeCreateTable (st : Storage) (currentDatabase : Option String)
    (tableName : String) (columns : List ColumnDefA) :
    Except String (Storage × ExecResult) := do
  match currentDatabase with
  | none => Except.error "Nenhum banco selecionado"
  | some db => createTableSM st db tableName columns []

/-- `QueryExecutor.execute`: dispatch on the statement variant, converting a
thrown error into a failure result (the store is left as it was, since a
throw always happens before `saveTable`). -/
def execute (st : Storage) (currentDatabase : Option String)
    (ast : Statement) : Storage × ExecResult :=
  let r : Except String (Storage × ExecResult) :=
    match ast with
    | .select sl fc wc jcs ob gb =>
        executeSelect st currentDatabase sl fc wc jcs ob gb
    | .insert tn cols vals => executeInsert st currentDatabase tn cols vals
    | .update tn asg wc => executeUpdate st currentDatabase tn asg wc
    | .delete tn wc => executeDelete st currentDatabase tn wc
    | .createTable tn cols _ => executeCreateTable st currentDatabase tn cols
    | .createDatabase dn => .ok (createDatabaseSM st dn)
  match r with
  | .ok res => res
  | .error msg =>
      (st, ExecResult.mk false ("❌ Erro na execução: " ++ msg) [])

/-- `ConstraintValidator.parseConstraints`. -/
def parseConstraints (constraintString : String) : List String :=
  if constraintString == "" then []
  else (strSplitOnChar ',' constraintString).filter (fun c => strTrim c ≠ "")

/-- `ConstraintValidator.generateUUID` produces a random identifier; the
model uses a fixed well-formed string (no claim depends on uuid values). -/
def generateUUID : String := "00000000-0000-4000-8000-000000000000"

/-- The column's stored values that are numbers (`typeof val === 'number'`),
in record order. -/
def autoNumericValues (tableData : TableData) (columnName : String) :
    List JNum :=
  tableData.registros.filterMap (fun kv =>
    match objGet kv.2 columnName with
    | .num q => some q
    | _ => none)

/-- The maximum of a list of numbers, none when empty (the source reaches it
by sorting descending and taking the first element). -/
def maxNumFold (values : List JNum) : Option JNum :=
  values.foldl (fun acc v =>
    match acc with
    | none => some v
    | some m => some (if decLt m v then v else m)) none

/-- `ConstraintValidator.getNextAutoIncrementValue`: one plus the maximum
numeric value stored in the column, 1 when there is none. -/
def getNextAutoIncrementValue (tableData : TableData) (columnName : String) :
    JNum :=
  match maxNumFold (autoNumericValues tableData columnName) with
  | some m => decAdd m (JNum.ofInt 1)
  | none => JNum.ofInt 1

/-- `parseFloat` as used on DEFAULT literals; `NaN` modelled as null. -/
def parseFloatJS (s : String) : Value :=
  match toNumber (.str s) with
  | some q => .num q
  | none => .null

/-- `ConstraintValidator.parseDefaultValue`. -/
def parseDefaultValue (defaultValue : String) (tipo : String) : Value :=
  if tipo == "numero" then parseFloatJS defaultValue
  else if tipo == "booleano" then .bool (strLower defaultValue == "true")
  else if tipo == "uuid" then
    (if defaultValue == "UUID()" then .str generateUUID
      else .str defaultValue)
  else .str defaultValue

/-- The AUTO INCREMENT statement of `applyAutoValues`: fill the generated
next value when the current value is falsy (`!record[columnName]`). -/
def autoIncStep (tableData : TableData) (record : Obj)
    (columnName : String) (cm : ColMeta) : Obj :=
  if (parseConstraints cm.constraintsStr).contains "AUTO_INCREMENT" ∧
      ¬ jsTruthy (objGet record columnName) then
    mapSet record columnName
      (.num (getNextAutoIncrementValue tableData columnName))
  else record

/-- The UUID statement of `applyAutoValues`: a generated identifier when the
declared type is uuid and the current value is falsy. -/
def uuidStep (record : Obj) (columnName : String) (cm : ColMeta) : Obj :=
  if cm.tipo == "uuid" ∧ ¬ jsTruthy (objGet record columnName) then
    mapSet record columnName (.str generateUUID)
  else record

/-- The DEFAULT statement of `applyAutoValues`: the parsed default literal
when a DEFAULT constraint exists and the current value is null/undefined. -/
def defaultStep (record : Obj) (columnName : String) (cm : ColMeta) : Obj :=
  match (parseConstraints cm.constraintsStr).find?
      (fun c => strStartsWith c "DEFAULT:") with
  | some dc =>
      if isNullish (objGet record columnName) then
        mapSet record columnName
          (parseDefaultValue ((strSplitOnChar ':' dc).getD 1 "") cm.tipo)
      else record
  | none => record

/-- One column's pass of `ConstraintValidator.applyAutoValues`: the three
statements of the source's loop body, in order. -/
def applyAutoColumn (tableData : TableData) (record : Obj)
    (columnName : String) (cm : ColMeta) : Obj :=
  defaultStep (uuidStep (autoIncStep tableData record columnName cm)
    columnName cm) columnName cm

/-- `ConstraintValidator.applyAutoValues` (the in-place record mutation is
modelled by returning the updated record). -/
def applyAutoValues (record : Obj) (tableData : TableData) : Obj :=
  tableData.colunas.foldl (fun r kv => applyAutoColumn tableData r kv.1 kv.2)
    record

/-- `ConstraintValidator.checkDuplicateValue` (strict equality against every
stored record's value in that column). -/
def checkDuplicateValue (st : Storage) (databaseName tableName
    columnName : String) (value : Value) : Bool :=
  match loadTable st databaseName tableName with
  | none => false
  | some t => t.registros.any (fun kv => objGet kv.2 columnName == value)

/-- `ConstraintValidator.validateForeignKey`. -/
def validateForeignKey (st : Storage) (databaseName referencedTable
    referencedColumn : String) (value : Value) : Bool :=
  if isNullish value then true
  else match loadTable st databaseName referencedTable with
    | none => false
    | some t => t.registros.any (fun kv =>
        objGet kv.2 referencedColumn == value)

/-- `ConstraintValidator.validateInsert`: apply generated values, then
collect NOT-NULL, PRIMARY-KEY (null or duplicate), UNIQUE and FOREIGN-KEY
violations.  Returns the violation list and the (possibly filled) record. -/
def validateInsert (st : Storage) (databaseName tableName : String)
    (record0 : Obj) (tableData : TableData) : List String × Obj :=
  let record := applyAutoValues record0 tableData
  let errors := tableData.colunas.foldl (fun errors kv =>
    let columnName := kv.1
    let value := objGet record columnName
    let constraints := parseConstraints kv.2.constraintsStr
    let errors :=
      if constraints.contains "NOT_NULL" ∧ isNullish value then
        errors ++ ["Coluna " ++ columnName ++ " não pode ser nula"]
      else errors
    let errors :=
      if constraints.contains "PRIMARY_KEY" then
        if isNullish value then
          errors ++ ["Chave primária " ++ columnName ++ " não pode ser nula"]
        else if checkDuplicateValue st databaseName tableName columnName
            value then
          errors ++ ["Valor duplicado para chave primária " ++ columnName ++
            ": " ++ jsToString value]
        else errors
      else errors
    let errors :=
      if constraints.contains "UNIQUE" ∧ ¬ isNullish value ∧
          checkDuplicateValue st databaseName tableName columnName value then
        errors ++ ["Valor duplicado para coluna única " ++ columnName ++
          ": " ++ jsToString value]
      else errors
    errors) []
  let errors := tableData.constraints.foldl (fun errors c =>
    if c.ctype == "FOREIGN_KEY" then
      let value := objGet record c.columnName
      if ¬ isNullish value then
        if ¬ validateForeignKey st databaseName (c.referencedTable.getD "")
            (c.referencedColumn.getD "") value then
          errors ++ ["Chave estrangeira inválida: " ++ c.columnName ++ " = "
            ++ jsToString value]
        else errors
      else errors
    else errors) errors
  (errors, record)

/-- `StorageManager.insertRecord`: validate via the Constraint Validator,
abort on any violation, otherwise store under `reg_(record count + 1)`. -/
def insertRecord (st : Storage) (databaseName tableName : String)
    (record : Obj) : Except String (Storage × ExecResult) := do
  let tableData : TableData ← match loadTable st databaseName tableName with
    | none => Except.error ("Tabela " ++ tableName ++ " não encontrada")
    | some t => pure t
  let (errors, record) := validateInsert st databaseName tableName record
    tableData
  if errors ≠ [] then
    Except.error ("Violação de constraints: " ++ strJoin ", " errors)
  else do
    let nextId := tableData.registros.length + 1
    let st2 ← saveTable st databaseName tableName
      { tableData with
        registros := mapSet tableData.registros ("reg_" ++ toString nextId)
          record }
    pure (st2, ExecResult.mk true
      ("✅ Registro inserido na tabela " ++ tableName ++ " com sucesso") [])

/-- Pipeline errors for the full text-to-result driver. -/
inductive RunErr where
  | lexE (e : LexErr)
  | parseE (e : ParseErr)
deriving Repr, DecidableEq

/-- The CLI's `processSQLCommand`: tokenize, parse, execute.  When the
parser returns several statements the executor receives the array and, as in
the source, rejects it as an unimplemented command kind. -/
def runSQL (st : Storage) (currentDatabase : Option String) (input : String) :
    Except RunErr (Storage × ExecResult) := do
  let tokens ← (tokenize input).mapError RunErr.lexE
  let out ← (parse tokens).mapError RunErr.parseE
  match out with
  | .one stmt => pure (execute st currentDatabase stmt)
  | .many _ => pure (st, ExecResult.mk false
      "❌ Erro na execução: Tipo de comando não implementado: Array" [])

end TagonJS
namespace TagonJS

theorem find?_mapSet_self {α : Type} (r : List (String × α)) (k : String)
    (v : α) : (mapSet r k v).find? (fun kv => kv.1 == k) = some (k, v) := by
  unfold mapSet
  by_cases h : r.any (fun kv => kv.1 == k)
  · rw [if_pos h, List.find?_map]
    have hfe : ((fun kv => kv.1 == k) ∘
        (fun kv : String × α => if kv.1 == k then (k, v) else kv)) =
        (fun kv : String × α => kv.1 == k) := by
      funext kv
      by_cases hk : (kv.1 == k) = true
      · simp only [Function.comp, if_pos hk, hk]
        simp
      · simp only [Function.comp, if_neg hk]
    rw [hfe]
    rcases List.any_eq_true.mp h with ⟨kv0, hmem, hkv0⟩
    have hsome : (r.find? (fun kv => kv.1 == k)).isSome :=
      List.find?_isSome.mpr ⟨kv0, hmem, hkv0⟩
    rcases Option.isSome_iff_exists.mp hsome with ⟨b, hb⟩
    have hpb := List.find?_some hb
    have hb1 : b.1 = k := by simpa using hpb
    rw [hb, Option.map_some']
    rw [if_pos (by simpa using hpb)]
  · rw [if_neg h, List.find?_append]
    have hnone : r.find? (fun kv => kv.1 == k) = none := by
      rw [List.find?_eq_none]
      intro x hx hpx
      exact h (List.any_eq_true.mpr ⟨x, hx, hpx⟩)
    simp [hnone]

theorem find?_mapSet_ne {α : Type} (r : List (String × α)) (k k' : String)
    (v : α) (h : (k == k') = false) :
    (mapSet r k v).find? (fun kv => kv.1 == k') =
      r.find? (fun kv => kv.1 == k') := by
  unfold mapSet
  by_cases hany : r.any (fun kv => kv.1 == k)
  · rw [if_pos hany, List.find?_map]
    have hfe : ((fun kv => kv.1 == k') ∘
        (fun kv : String × α => if kv.1 == k then (k, v) else kv)) =
        (fun kv : String × α => kv.1 == k') := by
      funext kv
      by_cases hk : (kv.1 == k) = true
      · have hkk : kv.1 = k := by simpa using hk
        simp only [Function.comp, if_pos hk, h]
        rw [hkk]
        exact h.symm
      · simp only [Function.comp, if_neg hk]
    rw [hfe]
    cases hf : r.find? (fun kv => kv.1 == k') with
    | none => rfl
    | some b =>
        have hpb := List.find?_some hf
        have hb' : b.1 = k' := beq_iff_eq.mp hpb
        have hkk : (k' == k) = false := by
          cases hkk : (k' == k)
          · rfl
          · have he : k' = k := beq_iff_eq.mp hkk
            rw [he] at h
            simp at h
        have hbk : (b.1 == k) = false := by
          rw [hb']
          exact hkk
        rw [Option.map_some']
        rw [if_neg (by simp [hbk])]
  · rw [if_neg hany, List.find?_append]
    have hone : [(k, v)].find? (fun kv => kv.1 == k') = none := by
      simp [h]
    rw [hone]
    cases r.find? (fun kv => kv.1 == k') <;> rfl

theorem objGet_mapSet_self (r : Obj) (k : String) (v : Value) :
    objGet (mapSet r k v) k = v := by
  unfold objGet
  rw [find?_mapSet_self]

theorem objGet_mapSet_ne (r : Obj) (k k' : String) (v : Value)
    (h : k' ≠ k) : objGet (mapSet r k v) k' = objGet r k' := by
  unfold objGet
  rw [find?_mapSet_ne]
  exact beq_eq_false_iff_ne.mpr (fun e => h e.symm)

theorem length_mapSet_of_mem {α : Type} (r : List (String × α))
    (k : String) (v : α) (h : r.any (fun kv => kv.1 == k) = true) :
    (mapSet r k v).length = r.length := by
  unfold mapSet
  rw [if_pos h, List.length_map]

theorem mapSet_of_not_mem {α : Type} (r : List (String × α)) (k : String)
    (v : α) (h : r.any (fun kv => kv.1 == k) = false) :
    mapSet r k v = r ++ [(k, v)] := by
  unfold mapSet
  rw [if_neg (by simp [h])]

end TagonJS
namespace TagonJS

/-- C10: LIKE evaluation is total and never raises: whenever either operand
is not a string (a LEFT-join null, a number, a boolean, undefined), the
comparison evaluates to false instead of erroring.  In this embedding
`evaluateLike` is a total Bool-valued function precisely because the source
returns false from the `typeof` guard before ever building the regex. -/
theorem C10_like_non_string_false (value pattern : Value)
    (h : isStr value = false ∨ isStr pattern = false) :
    evaluateLike value pattern = false := by
  cases value <;> cases pattern <;>
    first
      | rfl
      | (rcases h with h | h <;> simp [isStr] at h)

/-- Witness for C10: a LEFT-join null matched against the pattern "jo%"
yields false, and a number matched against a number yields false. -/
theorem C10_like_non_string_false_witness :
    (isStr Value.null = false ∨ isStr (Value.str "jo%") = false) ∧
    evaluateLike Value.null (Value.str "jo%") = false ∧
    evaluateLike (Value.num (JNum.ofInt 7)) (Value.num (JNum.ofInt 7)) =
      false :=
  ⟨Or.inl rfl,
   C10_like_non_string_false Value.null (Value.str "jo%") (Or.inl rfl),
   C10_like_non_string_false (Value.num (JNum.ofInt 7))
     (Value.num (JNum.ofInt 7)) (Or.inl rfl)⟩

theorem recentTokens_append_three (pre : List Token) (a b c : Token) :
    recentTokens (pre ++ [a, b, c]) 3 = [a, b, c] := by
  unfold recentTokens
  rw [List.length_append]
  have h3 : [a, b, c].length = 3 := rfl
  rw [h3, Nat.add_sub_cancel]
  exact List.drop_left pre [a, b, c]

/-- C4: the contextual keyword resolver inspects the most recent three
emitted tokens: any INSERT kind among them resolves to INTO; otherwise any
JOIN kind resolves to ON; otherwise the default is INTO.  In particular a
history holding exactly the INSERT keyword token yields INTO, and any
history ending with JOIN, table identifier, alias identifier yields ON. -/
theorem C4_detectContextualEm_spec :
    (∀ hist : List Token,
      ((recentTokens hist 3).any (fun t => t.type == Tok.INSERT)) = true →
        detectContextualEm hist = Tok.INTO) ∧
    (∀ hist : List Token,
      ((recentTokens hist 3).any (fun t => t.type == Tok.INSERT)) = false →
      ((recentTokens hist 3).any (fun t => t.type == Tok.JOIN)) = true →
        detectContextualEm hist = Tok.ON) ∧
    (∀ hist : List Token,
      ((recentTokens hist 3).any (fun t => t.type == Tok.INSERT)) = false →
      ((recentTokens hist 3).any (fun t => t.type == Tok.JOIN)) = false →
        detectContextualEm hist = Tok.INTO) ∧
    (∀ p : Nat,
      detectContextualEm [Token.mk Tok.INSERT (Value.str "inserir") p] =
        Tok.INTO) ∧
    (∀ (pre : List Token) (tn an : String) (p1 p2 p3 : Nat),
      detectContextualEm (pre ++
        [Token.mk Tok.JOIN (Value.str "juntar") p1,
         Token.mk Tok.IDENTIFIER (Value.str tn) p2,
         Token.mk Tok.IDENTIFIER (Value.str an) p3]) = Tok.ON) := by
  refine ⟨?_, ?_, ?_, ?_, ?_⟩
  · intro hist h
    unfold detectContextualEm
    simp only [h, if_true]
  · intro hist h1 h2
    unfold detectContextualEm
    simp only [h1, h2, if_true, Bool.false_eq_true, if_false]
  · intro hist h1 h2
    unfold detectContextualEm
    simp only [h1, h2, Bool.false_eq_true, if_false]
  · intro p
    rfl
  · intro pre tn an p1 p2 p3
    unfold detectContextualEm
    rw [recentTokens_append_three]
    rfl

/-- Witness for C4: concrete histories exercising each branch — INSERT in
the window, JOIN (and no INSERT) in the window, neither, the bare INSERT
history and a JOIN·table·alias tail. -/
theorem C4_detectContextualEm_spec_witness :
    detectContextualEm [Token.mk Tok.INSERT (Value.str "inserir") 7] =
      Tok.INTO ∧
    detectContextualEm [Token.mk Tok.JOIN (Value.str "juntar") 20,
      Token.mk Tok.IDENTIFIER (Value.str "posts") 26,
      Token.mk Tok.IDENTIFIER (Value.str "p") 28] = Tok.ON ∧
    detectContextualEm [Token.mk Tok.SELECT (Value.str "selecionar") 10] =
      Tok.INTO ∧
    detectContextualEm (([] : List Token) ++
      [Token.mk Tok.JOIN (Value.str "juntar") 20,
       Token.mk Tok.IDENTIFIER (Value.str "posts") 26,
       Token.mk Tok.IDENTIFIER (Value.str "p") 28]) = Tok.ON :=
  ⟨C4_detectContextualEm_spec.1
     [Token.mk Tok.INSERT (Value.str "inserir") 7] (by decide),
   C4_detectContextualEm_spec.2.1
     [Token.mk Tok.JOIN (Value.str "juntar") 20,
      Token.mk Tok.IDENTIFIER (Value.str "posts") 26,
      Token.mk Tok.IDENTIFIER (Value.str "p") 28] (by decide) (by decide),
   C4_detectContextualEm_spec.2.2.1
     [Token.mk Tok.SELECT (Value.str "selecionar") 10] (by decide)
     (by decide),
   C4_detectContextualEm_spec.2.2.2.2 [] "posts" "p" 20 26 28⟩

end TagonJS
namespace TagonJS

theorem objGet_autoIncStep_ne (t : TableData) (r : Obj) (c : String)
    (cm : ColMeta) (col : String) (h : col ≠ c) :
    objGet (autoIncStep t r c cm) col = objGet r col := by
  unfold autoIncStep
  split
  · exact objGet_mapSet_ne _ _ _ _ h
  · rfl

theorem objGet_uuidStep_ne (r : Obj) (c : String) (cm : ColMeta)
    (col : String) (h : col ≠ c) :
    objGet (uuidStep r c cm) col = objGet r col := by
  unfold uuidStep
  split
  · exact objGet_mapSet_ne _ _ _ _ h
  · rfl

theorem objGet_defaultStep_ne (r : Obj) (c : String) (cm : ColMeta)
    (col : String) (h : col ≠ c) :
    objGet (defaultStep r c cm) col = objGet r col := by
  unfold defaultStep
  split
  · split
    · exact objGet_mapSet_ne _ _ _ _ h
    · rfl
  · rfl

theorem objGet_applyAutoColumn_ne (t : TableData) (r : Obj) (c : String)
    (cm : ColMeta) (col : String) (h : col ≠ c) :
    objGet (applyAutoColumn t r c cm) col = objGet r col := by
  unfold applyAutoColumn
  rw [objGet_defaultStep_ne _ _ _ _ h, objGet_uuidStep_ne _ _ _ _ h,
    objGet_autoIncStep_ne _ _ _ _ _ h]

theorem objGet_applyAutoColumn_self (t : TableData) (r : Obj) (c : String)
    (cm : ColMeta)
    (hai : (parseConstraints cm.constraintsStr).contains "AUTO_INCREMENT"
      = true)
    (huuid : (cm.tipo == "uuid") = false)
    (hfalsy : jsTruthy (objGet r c) = false) :
    objGet (applyAutoColumn t r c cm) c =
      Value.num (getNextAutoIncrementValue t c) := by
  unfold applyAutoColumn
  have h1 : autoIncStep t r c cm =
      mapSet r c (Value.num (getNextAutoIncrementValue t c)) := by
    unfold autoIncStep
    rw [if_pos ⟨hai, by simp [hfalsy]⟩]
  have h2 : objGet (mapSet r c (Value.num (getNextAutoIncrementValue t c)))
      c = Value.num (getNextAutoIncrementValue t c) :=
    objGet_mapSet_self _ _ _
  have h3 : uuidStep (mapSet r c
      (Value.num (getNextAutoIncrementValue t c))) c cm =
      mapSet r c (Value.num (getNextAutoIncrementValue t c)) := by
    unfold uuidStep
    rw [if_neg]
    intro hc
    rw [huuid] at hc
    exact absurd hc.1 (by simp)
  rw [h1, h3]
  unfold defaultStep
  split
  · rw [if_neg]
    · exact h2
    · rw [h2]
      simp [isNullish]
  · exact h2

theorem objGet_foldl_applyAutoColumn_ne (t : TableData)
    (cols : List (String × ColMeta)) (r : Obj) (col : String)
    (h : ∀ kv ∈ cols, kv.1 ≠ col) :
    objGet (cols.foldl (fun r kv => applyAutoColumn t r kv.1 kv.2) r) col =
      objGet r col := by
  induction cols generalizing r with
  | nil => rfl
  | cons a as ih =>
      rw [List.foldl_cons,
        ih _ (fun kv hkv => h kv (List.mem_cons_of_mem a hkv))]
      exact objGet_applyAutoColumn_ne _ _ _ _ _
        (fun e => (h a (List.mem_cons_self a as)) e.symm)

theorem objGet_applyAutoValues_go (t : TableData) (col : String)
    (cm : ColMeta)
    (hai : (parseConstraints cm.constraintsStr).contains "AUTO_INCREMENT"
      = true)
    (huuid : (cm.tipo == "uuid") = false) :
    ∀ (cols : List (String × ColMeta)) (record : Obj),
      (col, cm) ∈ cols → (cols.map (fun kv => kv.1)).Nodup →
      jsTruthy (objGet record col) = false →
      objGet (cols.foldl (fun r kv => applyAutoColumn t r kv.1 kv.2) record)
        col = Value.num (getNextAutoIncrementValue t col) := by
  intro cols
  induction cols with
  | nil => intro record hmem; cases hmem
  | cons a as ih =>
      intro record hmem hnodup hfalsy
      have hn : (a.1 :: as.map (fun kv => kv.1)).Nodup := by
        simpa using hnodup
      have hh := (List.nodup_cons.mp hn).1
      have ht := (List.nodup_cons.mp hn).2
      rw [List.foldl_cons]
      rcases List.mem_cons.mp hmem with heq | hmm
      · have ha1 : a.1 = col := by rw [← heq]
        have hkeys : col ∉ as.map (fun kv => kv.1) := ha1 ▸ hh
        rw [objGet_foldl_applyAutoColumn_ne t as _ col ?hne]
        case hne =>
          intro kv hkv e
          exact hkeys (List.mem_map.mpr ⟨kv, hkv, e⟩)
        rw [← heq]
        exact objGet_applyAutoColumn_self t record col cm hai huuid hfalsy
      · have hcoltail : col ∈ as.map (fun kv => kv.1) :=
          List.mem_map.mpr ⟨(col, cm), hmm, rfl⟩
        have hne : a.1 ≠ col := by
          intro e
          rw [e] at hh
          exact hh hcoltail
        apply ih _ hmm ht
        rw [objGet_applyAutoColumn_ne _ _ _ _ _ (fun e => hne e.symm)]
        exact hfalsy

end TagonJS
namespace TagonJS

theorem pow10_pos (n : Nat) : 0 < pow10 n := by
  induction n with
  | zero => decide
  | succ n ih =>
      rw [pow10]
      nlinarith [ih]

theorem decLe_refl (a : JNum) : decLe a a = true := by
  simp [decLe]

theorem decLe_of_decLt (a b : JNum) (h : decLt a b = true) :
    decLe a b = true := by
  simp only [decLt, decide_eq_true_eq] at h
  simp only [decLe, decide_eq_true_eq]
  exact le_of_lt h

theorem decLe_of_not_decLt (a b : JNum) (h : decLt a b = false) :
    decLe b a = true := by
  simp only [decLt, decide_eq_false_iff_not] at h
  simp only [decLe, decide_eq_true_eq]
  exact le_of_not_lt h

theorem decLe_trans (a b c : JNum) (h1 : decLe a b = true)
    (h2 : decLe b c = true) : decLe a c = true := by
  simp only [decLe, decide_eq_true_eq] at h1 h2 ⊢
  have pa := pow10_pos a.exp
  have pb := pow10_pos b.exp
  have pc := pow10_pos c.exp
  nlinarith [mul_le_mul_of_nonneg_right h1 (le_of_lt pc),
    mul_le_mul_of_nonneg_right h2 (le_of_lt pa)]

theorem maxNumFold_go (l : List JNum) : ∀ (m : JNum),
    ∃ r, (l.foldl (fun acc v =>
        match acc with
        | none => some v
        | some m => some (if decLt m v then v else m)) (some m)) = some r ∧
      (r = m ∨ r ∈ l) ∧ decLe m r = true ∧ ∀ v ∈ l, decLe v r = true := by
  induction l with
  | nil =>
      intro m
      exact ⟨m, rfl, Or.inl rfl, decLe_refl m, fun v hv => absurd hv
        (List.not_mem_nil v)⟩
  | cons v vs ih =>
      intro m
      rw [List.foldl_cons]
      rcases ih (if decLt m v then v else m) with ⟨r, hfold, hmem, hle, hall⟩
      refine ⟨r, hfold, ?_, ?_, ?_⟩
      · rcases hmem with hr | hr
        · by_cases hlt : decLt m v = true
          · rw [if_pos hlt] at hr
            exact Or.inr (hr ▸ List.mem_cons_self v vs)
          · rw [if_neg (by simpa using hlt)] at hr
            exact Or.inl hr
        · exact Or.inr (List.mem_cons_of_mem v hr)
      · by_cases hlt : decLt m v = true
        · rw [if_pos hlt] at hle
          exact decLe_trans m v r (decLe_of_decLt m v hlt) hle
        · rw [if_neg (by simpa using hlt)] at hle
          exact hle
      · intro v0 hv0
        rcases List.mem_cons.mp hv0 with he | hm
        · subst he
          by_cases hlt : decLt m v0 = true
          · rw [if_pos hlt] at hle
            exact hle
          · rw [if_neg (by simpa using hlt)] at hle
            exact decLe_trans v0 m r
              (decLe_of_not_decLt m v0 (by simpa using hlt)) hle
        · exact hall v0 hm

theorem maxNumFold_spec (l : List JNum) (hne : l ≠ []) :
    ∃ r, maxNumFold l = some r ∧ r ∈ l ∧ ∀ v ∈ l, decLe v r = true := by
  unfold maxNumFold
  cases l with
  | nil => exact absurd rfl hne
  | cons v vs =>
      rw [List.foldl_cons]
      rcases maxNumFold_go vs v with ⟨r, hfold, hmem, hle, hall⟩
      refine ⟨r, hfold, ?_, ?_⟩
      · rcases hmem with hr | hr
        · exact hr ▸ List.mem_cons_self v vs
        · exact List.mem_cons_of_mem v hr
      · intro v0 hv0
        rcases List.mem_cons.mp hv0 with he | hm
        · exact he ▸ hle
        · exact hall v0 hm

end TagonJS
namespace TagonJS

/-- C9: the validator's presence test for auto-increment columns is JS
falsiness, not absence: zero is falsy, so a candidate record explicitly
supplying the value 0 for an auto-increment column has that supplied value
replaced by the generated next value rather than preserved. -/
theorem C9_auto_increment_zero_replaced (t : TableData) (record : Obj)
    (col : String) (cm : ColMeta)
    (hmem : (col, cm) ∈ t.colunas)
    (hnodup : (t.colunas.map (fun kv => kv.1)).Nodup)
    (hai : (parseConstraints cm.constraintsStr).contains "AUTO_INCREMENT"
      = true)
    (huuid : (cm.tipo == "uuid") = false)
    (hzero : objGet record col = Value.num (JNum.ofInt 0)) :
    jsTruthy (Value.num (JNum.ofInt 0)) = false ∧
    objGet (applyAutoValues record t) col =
      Value.num (getNextAutoIncrementValue t col) := by
  refine ⟨rfl, ?_⟩
  unfold applyAutoValues
  exact objGet_applyAutoValues_go t col cm hai huuid t.colunas record hmem
    hnodup (by rw [hzero]; rfl)

/-- The one-auto-increment-column table used by the C9 witness: one stored
record with value 1, so the generated next value is 2. -/
def c9Table : TableData := TableData.mk
  [("id", ColMeta.mk "numero" "AUTO_INCREMENT")]
  [("reg_1", [("id", Value.num (JNum.ofInt 1))])] []

/-- Witness for C9: the supplied 0 is overwritten with the generated 2. -/
theorem C9_auto_increment_zero_replaced_witness :
    (objGet (applyAutoValues [("id", Value.num (JNum.ofInt 0))] c9Table)
        "id" = Value.num (getNextAutoIncrementValue c9Table "id")) ∧
    getNextAutoIncrementValue c9Table "id" = JNum.ofInt 2 ∧
    Value.num (JNum.ofInt 2) ≠ Value.num (JNum.ofInt 0) :=
  ⟨(C9_auto_increment_zero_replaced c9Table
      [("id", Value.num (JNum.ofInt 0))] "id"
      (ColMeta.mk "numero" "AUTO_INCREMENT") (by decide) (by decide)
      (by decide) (by decide) (by decide)).2,
   by decide, by decide⟩

end TagonJS
namespace TagonJS

/-- The Scenario-B table: a single column declared AUTO INCREMENT and
PRIMARY KEY, initially with no records. -/
def c5Table : TableData := TableData.mk
  [("id", ColMeta.mk "numero" "AUTO_INCREMENT,PRIMARY_KEY")] [] []

/-- Scenario-B storage before any insert. -/
def c5S0 : Storage := Storage.mk [("app", Database.mk [("usuarios", c5Table)])]

/-- The table after the first omitted-column insert: generated value 1. -/
def c5Table1 : TableData := { c5Table with
  registros := [("reg_1", [("id", Value.num (JNum.ofInt 1))])] }

/-- Storage after the first insert. -/
def c5S1 : Storage := Storage.mk
  [("app", Database.mk [("usuarios", c5Table1)])]

/-- The table after the second omitted-column insert: generated value 2. -/
def c5Table2 : TableData := { c5Table with
  registros := [("reg_1", [("id", Value.num (JNum.ofInt 1))]),
                ("reg_2", [("id", Value.num (JNum.ofInt 2))])] }

/-- Storage after the second insert. -/
def c5S2 : Storage := Storage.mk
  [("app", Database.mk [("usuarios", c5Table2)])]

/-- The success message of `insertRecord` on this table. -/
def insertOkMsg : String := "✅ Registro inserido na tabela usuarios com sucesso"

/-- C5: auto-increment assignment.  (1) An empty table yields 1.  (2) A
non-empty numeric column yields one plus a maximum stored numeric value.
(3) The validator fills every auto-increment column absent from the
candidate record with that generated value.  (4) Scenario B: from an empty
table, two inserts omitting the column store 1 then 2, and a third insert
explicitly supplying the already-used 1 fails with the primary-key
uniqueness violation and persists nothing. -/
theorem C5_auto_increment_semantics :
    (∀ (t : TableData) (col : String), t.registros = [] →
      getNextAutoIncrementValue t col = JNum.ofInt 1) ∧
    (∀ (t : TableData) (col : String), autoNumericValues t col ≠ [] →
      ∃ m, m ∈ autoNumericValues t col ∧
        (∀ v ∈ autoNumericValues t col, decLe v m = true) ∧
        getNextAutoIncrementValue t col = decAdd m (JNum.ofInt 1)) ∧
    (∀ (t : TableData) (record : Obj) (col : String) (cm : ColMeta),
      (col, cm) ∈ t.colunas →
      (t.colunas.map (fun kv => kv.1)).Nodup →
      (parseConstraints cm.constraintsStr).contains "AUTO_INCREMENT" = true →
      (cm.tipo == "uuid") = false →
      objGet record col = Value.undef →
      objGet (applyAutoValues record t) col =
        Value.num (getNextAutoIncrementValue t col)) ∧
    insertRecord c5S0 "app" "usuarios" [] =
      .ok (c5S1, ExecResult.mk true insertOkMsg []) ∧
    insertRecord c5S1 "app" "usuarios" [] =
      .ok (c5S2, ExecResult.mk true insertOkMsg []) ∧
    insertRecord c5S2 "app" "usuarios" [("id", Value.num (JNum.ofInt 1))] =
      .error
        "Violação de constraints: Valor duplicado para chave primária id: 1"
    := by
  refine ⟨?_, ?_, ?_, by decide, by decide, by decide⟩
  · intro t col h
    unfold getNextAutoIncrementValue autoNumericValues
    rw [h]
    rfl
  · intro t col hne
    rcases maxNumFold_spec _ hne with ⟨r, h1, h2, h3⟩
    refine ⟨r, h2, h3, ?_⟩
    unfold getNextAutoIncrementValue
    rw [h1]
  · intro t record col cm hmem hnodup hai huuid hundef
    unfold applyAutoValues
    exact objGet_applyAutoValues_go t col cm hai huuid t.colunas record hmem
      hnodup (by rw [hundef]; rfl)

/-- Witness for C5: the generated value is 1 on the empty table, 2 on the
table holding the value 1 (one plus the maximum), and an absent column is
filled. -/
theorem C5_auto_increment_semantics_witness :
    getNextAutoIncrementValue c5Table "id" = JNum.ofInt 1 ∧
    (∃ m, m ∈ autoNumericValues c5Table2 "id" ∧
      (∀ v ∈ autoNumericValues c5Table2 "id", decLe v m = true) ∧
      getNextAutoIncrementValue c5Table2 "id" = decAdd m (JNum.ofInt 1)) ∧
    objGet (applyAutoValues [] c5Table1) "id" =
      Value.num (getNextAutoIncrementValue c5Table1 "id") :=
  ⟨C5_auto_increment_semantics.1 c5Table "id" rfl,
   C5_auto_increment_semantics.2.1 c5Table2 "id" (by decide),
   C5_auto_increment_semantics.2.2.1 c5Table1 [] "id"
     (ColMeta.mk "numero" "AUTO_INCREMENT,PRIMARY_KEY") (by decide)
     (by decide) (by decide) (by decide) (by decide)⟩

end TagonJS
namespace TagonJS

/-- A table with a PRIMARY KEY column already holding the value 1. -/
def c1Table : TableData := TableData.mk
  [("id", ColMeta.mk "numero" "PRIMARY_KEY")]
  [("reg_1", [("id", Value.num (JNum.ofInt 1))])] []

/-- Storage for the C1 failing input. -/
def c1S : Storage := Storage.mk [("db", Database.mk [("t", c1Table)])]

/-- The same table after the duplicate insert committed by the executor. -/
def c1TableAfter : TableData := { c1Table with
  registros := [("reg_1", [("id", Value.num (JNum.ofInt 1))]),
                ("reg_2", [("id", Value.num (JNum.ofInt 1))])] }

/-- Storage after the duplicate insert. -/
def c1SAfter : Storage := Storage.mk [("db", Database.mk [("t", c1TableAfter)])]

/-- C1 (failing input): `QueryExecutor.executeInsert` never consults the
Constraint Validator — inserting the duplicate primary-key value 1 through
the executor succeeds and persists a second record with id 1, even though
`ConstraintValidator.validateInsert` on the same candidate record reports
the primary-key uniqueness violation (the validator is wired only into
`StorageManager.insertRecord`, which the executor does not call). -/
theorem C1_executeInsert_bypasses_validator :
    executeInsert c1S (some "db") "t" (some ["id"])
        [Expr.lit (Value.num (JNum.ofInt 1)) "NUMBER"] =
      .ok (c1SAfter, ExecResult.mk true
        "✅ Registro inserido na tabela t com sucesso" []) ∧
    (validateInsert c1S "db" "t" [("id", Value.num (JNum.ofInt 1))]
        c1Table).1 =
      ["Valor duplicado para chave primária id: 1"] :=
  ⟨by decide, by decide⟩

end TagonJS
namespace TagonJS

/-- Shorthand for a token with a string payload. -/
def tk (t : Tok) (s : String) (p : Nat) : Token := Token.mk t (Value.str s) p

/-- Shorthand for a number token. -/
def tkn (m : Int) (p : Nat) : Token :=
  Token.mk Tok.NUMBER (Value.num (JNum.ofInt m)) p

/-- Scenario A statement 1. -/
def c2SQL1 : String := "criar banco loja"

/-- Scenario A statement 2. -/
def c2SQL2 : String :=
  "criar tabela produtos (id: numero, nome: texto, preco: numero)"

/-- Scenario A statement 3 (note the capital M in the string literal). -/
def c2SQL3 : String :=
  "inserir em produtos (id, nome, preco) valores (1, \"Mouse\", 50)"

/-- Scenario A statement 4. -/
def c2SQL4 : String := "selecionar * de produtos onde preco > 10"

/-- Tokens of statement 1. -/
def c2Tok1 : List Token :=
  [tk .CREATE "criar" 5, tk .DATABASE "banco" 11, tk .IDENTIFIER "loja" 16,
   Token.mk .EOF Value.null 16]

/-- Tokens of statement 2. -/
def c2Tok2 : List Token :=
  [tk .CREATE "criar" 5, tk .TABLE "tabela" 12, tk .IDENTIFIER "produtos" 21,
   tk .OPEN_PAREN "(" 22, tk .IDENTIFIER "id" 25, tk .COLON ":" 25,
   tk .IDENTIFIER "numero" 33, tk .COMMA "," 33, tk .IDENTIFIER "nome" 39,
   tk .COLON ":" 39, tk .IDENTIFIER "texto" 46, tk .COMMA "," 46,
   tk .IDENTIFIER "preco" 53, tk .COLON ":" 53, tk .IDENTIFIER "numero" 61,
   tk .CLOSE_PAREN ")" 61, Token.mk .EOF Value.null 62]

/-- Tokens of statement 3: the lexer lowercased the whole input, so the
STRING token's payload is already "mouse". -/
def c2Tok3 : List Token :=
  [tk .INSERT "inserir" 7, tk .INTO "em" 10, tk .IDENTIFIER "produtos" 19,
   tk .OPEN_PAREN "(" 20, tk .IDENTIFIER "id" 23, tk .COMMA "," 23,
   tk .IDENTIFIER "nome" 29, tk .COMMA "," 29, tk .IDENTIFIER "preco" 36,
   tk .CLOSE_PAREN ")" 36, tk .VALUES "valores" 45, tk .OPEN_PAREN "(" 46,
   tkn 1 48, tk .COMMA "," 48, tk .STRING "mouse" 57, tk .COMMA "," 57,
   tkn 50 61, tk .CLOSE_PAREN ")" 61, Token.mk .EOF Value.null 62]

/-- Tokens of statement 4. -/
def c2Tok4 : List Token :=
  [tk .SELECT "selecionar" 10, tk .ASTERISK "*" 11, tk .FROM "de" 15,
   tk .IDENTIFIER "produtos" 24, tk .WHERE "onde" 29,
   tk .IDENTIFIER "preco" 35, tk .GREATER_THAN ">" 36, tkn 10 40,
   Token.mk .EOF Value.null 40]

/-- AST of statement 2. -/
def c2Ast2 : Statement := .createTable "produtos"
  [ColumnDefA.mk "id" "numero" [] none false,
   ColumnDefA.mk "nome" "texto" [] none false,
   ColumnDefA.mk "preco" "numero" [] none false] []

/-- AST of statement 3. -/
def c2Ast3 : Statement := .insert "produtos" (some ["id", "nome", "preco"])
  [Expr.lit (Value.num (JNum.ofInt 1)) "NUMBER",
   Expr.lit (Value.str "mouse") "STRING",
   Expr.lit (Value.num (JNum.ofInt 50)) "NUMBER"]

/-- AST of statement 4. -/
def c2Ast4 : Statement := .select
  [ColumnExpr.mk (.all none) none] (FromClauseA.mk "produtos" none)
  (some (Expr.bin (Expr.ident "preco" none) ">"
    (Expr.lit (Value.num (JNum.ofInt 10)) "NUMBER"))) [] none none

/-- Empty store. -/
def c2S0 : Storage := Storage.mk []

/-- Store after CREATE DATABASE loja. -/
def c2S1 : Storage := Storage.mk [("loja", Database.mk [])]

/-- The created produtos table. -/
def c2Tbl : TableData := TableData.mk
  [("id", ColMeta.mk "numero" ""), ("nome", ColMeta.mk "texto" ""),
   ("preco", ColMeta.mk "numero" "")] [] []

/-- Store after CREATE TABLE produtos. -/
def c2S2 : Storage := Storage.mk [("loja", Database.mk [("produtos", c2Tbl)])]

/-- Store after the INSERT: the stored nome is the lowercased "mouse". -/
def c2S3 : Storage := Storage.mk [("loja", Database.mk [("produtos",
  { c2Tbl with registros := [("reg_1",
    [("id", Value.num (JNum.ofInt 1)), ("nome", Value.str "mouse"),
     ("preco", Value.num (JNum.ofInt 50))])] })])]

/-- The single result row of the SELECT: qualified and bare keys. -/
def c2Row : Obj :=
  [("produtos.id", Value.num (JNum.ofInt 1)),
   ("id", Value.num (JNum.ofInt 1)),
   ("produtos.nome", Value.str "mouse"), ("nome", Value.str "mouse"),
   ("produtos.preco", Value.num (JNum.ofInt 50)),
   ("preco", Value.num (JNum.ofInt 50))]

/-- The four per-statement results. -/
def c2R1 : ExecResult :=
  ExecResult.mk true "✅ Banco loja criado com sucesso" []

/-- Result of statement 2. -/
def c2R2 : ExecResult :=
  ExecResult.mk true "✅ Tabela produtos criada com sucesso" []

/-- Result of statement 3. -/
def c2R3 : ExecResult :=
  ExecResult.mk true "✅ Registro inserido na tabela produtos com sucesso" []

/-- Result of statement 4. -/
def c2R4 : ExecResult :=
  ExecResult.mk true "📊 1 registro(s) encontrado(s)" [c2Row]

/-- C2 (counterexample): running Scenario A through the full pipeline from
the empty store (selecting the created database as the CLI does) returns
exactly one row, but its nome is "mouse" — the lexer lowercases the entire
input including string literals — so the claimed row value "Mouse" is not
what the engine returns. -/
theorem C2_scenarioA_counterexample :
    tokenize c2SQL1 = .ok c2Tok1 ∧
    parse c2Tok1 = .ok (.one (Statement.createDatabase "loja")) ∧
    execute c2S0 none (Statement.createDatabase "loja") = (c2S1, c2R1) ∧
    databaseExists c2S1 "loja" = true ∧
    tokenize c2SQL2 = .ok c2Tok2 ∧
    parse c2Tok2 = .ok (.one c2Ast2) ∧
    execute c2S1 (some "loja") c2Ast2 = (c2S2, c2R2) ∧
    tokenize c2SQL3 = .ok c2Tok3 ∧
    parse c2Tok3 = .ok (.one c2Ast3) ∧
    execute c2S2 (some "loja") c2Ast3 = (c2S3, c2R3) ∧
    tokenize c2SQL4 = .ok c2Tok4 ∧
    parse c2Tok4 = .ok (.one c2Ast4) ∧
    execute c2S3 (some "loja") c2Ast4 = (c2S3, c2R4) ∧
    c2R4.resultados = [c2Row] ∧
    objGet c2Row "nome" = Value.str "mouse" ∧
    Value.str "mouse" ≠ Value.str "Mouse" := by
  refine ⟨(by decide), (by decide), (by decide), (by decide), (by decide),
    (by decide), (by decide), (by decide), (by decide), (by decide),
    (by decide), (by decide), (by decide), (by decide), (by decide),
    (by decide)⟩

/-- C2 (amended): the same Scenario A run returns exactly one row whose id
is 1, nome is "mouse" (lowercased by the lexer's case normalization of the
whole input) and preco is 50; the row also carries the table-qualified
duplicates of these keys produced by the result-set conversion. -/
theorem C2_scenarioA_amended :
    tokenize c2SQL1 = .ok c2Tok1 ∧
    parse c2Tok1 = .ok (.one (Statement.createDatabase "loja")) ∧
    execute c2S0 none (Statement.createDatabase "loja") = (c2S1, c2R1) ∧
    databaseExists c2S1 "loja" = true ∧
    tokenize c2SQL2 = .ok c2Tok2 ∧
    parse c2Tok2 = .ok (.one c2Ast2) ∧
    execute c2S1 (some "loja") c2Ast2 = (c2S2, c2R2) ∧
    tokenize c2SQL3 = .ok c2Tok3 ∧
    parse c2Tok3 = .ok (.one c2Ast3) ∧
    execute c2S2 (some "loja") c2Ast3 = (c2S3, c2R3) ∧
    tokenize c2SQL4 = .ok c2Tok4 ∧
    parse c2Tok4 = .ok (.one c2Ast4) ∧
    execute c2S3 (some "loja") c2Ast4 = (c2S3, c2R4) ∧
    c2R4.resultados = [c2Row] ∧
    objGet c2Row "id" = Value.num (JNum.ofInt 1) ∧
    objGet c2Row "nome" = Value.str "mouse" ∧
    objGet c2Row "preco" = Value.num (JNum.ofInt 50) := by
  refine ⟨(by decide), (by decide), (by decide), (by decide), (by decide),
    (by decide), (by decide), (by decide), (by decide), (by decide),
    (by decide), (by decide), (by decide), (by decide), (by decide),
    (by decide), (by decide)⟩

end TagonJS
namespace TagonJS

/-- The C3 statement text: the direction word is outside the fixed
vocabulary. -/
def c3SQL : String := "selecionar * de t ordenar por a descendente"

/-- Its tokens ("descendente" is just an identifier). -/
def c3TokD : List Token :=
  [tk .SELECT "selecionar" 10, tk .ASTERISK "*" 11, tk .FROM "de" 15,
   tk .IDENTIFIER "t" 17, tk .ORDER "ordenar" 25, tk .BY "por" 29,
   tk .IDENTIFIER "a" 31, tk .IDENTIFIER "descendente" 43,
   Token.mk .EOF Value.null 43]

/-- C3 (counterexample): for the SELECT whose ORDER BY term is followed by
the out-of-vocabulary direction word "descendente", parsing does NOT
succeed: the word is left unconsumed by the ordering-term loop, and the
statement loop then fails on it with a syntax error. -/
theorem C3_unrecognized_direction_parse_fails :
    tokenize c3SQL = .ok c3TokD ∧
    parse c3TokD = .error (.synErr
      "Erro de sintaxe na posição 43: Comando não reconhecido: descendente")
    := ⟨by decide, by decide⟩

/-- C3 (amended): the ordering-term loop itself raises no error on an
unrecognized direction word — the direction defaults to ascending and the
word is not consumed — but the overall parse then fails at the leftover
word with "Comando não reconhecido".  The first conjunct is universal over
the unrecognized word; the remaining conjuncts run the representative
statement. -/
theorem C3_unrecognized_direction_ascending (w : String) (p : Nat)
    (s : PState)
    (hcur : getCurrentToken s = Token.mk Tok.IDENTIFIER (Value.str w) p)
    (h1 : (w == "asc") = false) (h2 : (w == "crescente") = false)
    (h3 : (w == "desc") = false) (h4 : (w == "decrescente") = false) :
    orderDirectionStep s = ("ASC", s) ∧
    parseOrderByClause 160 (PState.mk c3TokD 4) =
      .ok ([OrderByExprA.mk (Expr.ident "a" none) "ASC"],
        PState.mk c3TokD 7) ∧
    parse c3TokD = .error (.synErr
      "Erro de sintaxe na posição 43: Comando não reconhecido: descendente")
    := by
  refine ⟨?_, by decide, by decide⟩
  unfold orderDirectionStep
  rw [if_pos (by simp [matchTok, hcur])]
  rw [hcur]
  simp only [valStr, h1, h2, h3, h4, Bool.or_self, Bool.false_or,
    Bool.or_false, if_false, Bool.false_eq_true]

/-- Witness for C3's amended theorem at the word "descendente" and the
parser state where the ordering-term loop inspects it. -/
theorem C3_unrecognized_direction_ascending_witness :
    orderDirectionStep (PState.mk c3TokD 7) = ("ASC", PState.mk c3TokD 7) ∧
    parse c3TokD = .error (.synErr
      "Erro de sintaxe na posição 43: Comando não reconhecido: descendente")
    :=
  ⟨(C3_unrecognized_direction_ascending "descendente" 43 (PState.mk c3TokD 7)
      (by decide) (by decide) (by decide) (by decide) (by decide)).1,
   (C3_unrecognized_direction_ascending "descendente" 43 (PState.mk c3TokD 7)
      (by decide) (by decide) (by decide) (by decide) (by decide)).2.2⟩

end TagonJS
namespace TagonJS

theorem objGet_mergeObj_notin (b : Obj) : ∀ (a : Obj) (k : String),
    k ∉ objKeys b → objGet (mergeObj a b) k = objGet a k := by
  induction b with
  | nil => intro a k _; rfl
  | cons kv bs ih =>
      intro a k hk
      have hne : k ≠ kv.1 := by
        intro e
        exact hk (by rw [e]; exact List.mem_cons_self kv.1 (objKeys bs))
      have htail : k ∉ objKeys bs := by
        intro hm
        exact hk (List.mem_cons_of_mem kv.1 hm)
      unfold mergeObj
      rw [List.foldl_cons]
      have := ih (mapSet a kv.1 kv.2) k htail
      unfold mergeObj at this
      rw [this]
      exact objGet_mapSet_ne _ _ _ _ hne

theorem objGet_mergeObj_all_null (b : Obj) : ∀ (a : Obj) (k : String),
    (∀ kv ∈ b, kv.2 = Value.null) → k ∈ objKeys b →
    objGet (mergeObj a b) k = Value.null := by
  induction b with
  | nil => intro a k _ hk; cases hk
  | cons kv bs ih =>
      intro a k hnull hk
      unfold mergeObj
      rw [List.foldl_cons]
      by_cases hm : k ∈ objKeys bs
      · have := ih (mapSet a kv.1 kv.2) k
          (fun kv2 h2 => hnull kv2 (List.mem_cons_of_mem kv h2)) hm
        unfold mergeObj at this
        exact this
      · have he : k = kv.1 := by
          rcases List.mem_cons.mp hk with he | hmm
          · exact he
          · exact absurd hmm hm
        have hv : kv.2 = Value.null := hnull kv (List.mem_cons_self kv bs)
        have hrest := objGet_mergeObj_notin bs (mapSet a kv.1 kv.2) k hm
        unfold mergeObj at hrest
        rw [hrest, he, hv]
        exact objGet_mapSet_self _ _ _

theorem nullRow_entries_null (keys : List String) : ∀ (nr : Obj),
    (∀ kv ∈ nr, kv.2 = Value.null) →
    ∀ kv ∈ keys.foldl (fun nr k => mapSet nr k Value.null) nr,
      kv.2 = Value.null := by
  induction keys with
  | nil => intro nr h kv hkv; exact h kv hkv
  | cons k0 ks ih =>
      intro nr h kv hkv
      rw [List.foldl_cons] at hkv
      refine ih (mapSet nr k0 Value.null) ?_ kv hkv
      intro kv2 hkv2
      unfold mapSet at hkv2
      by_cases hany : nr.any (fun kv => kv.1 == k0)
      · rw [if_pos hany] at hkv2
        rcases List.mem_map.mp hkv2 with ⟨kv3, hkv3, he⟩
        by_cases h3 : (kv3.1 == k0) = true
        · rw [← he]
          simp [h3]
        · rw [← he]
          simp only [h3, Bool.false_eq_true, if_false]
          exact h kv3 hkv3
      · rw [if_neg hany] at hkv2
        rcases List.mem_append.mp hkv2 with hm | hm
        · exact h kv2 hm
        · rcases List.mem_singleton.mp hm with he
          rw [he]

theorem joinMatches_none (jc : JoinClauseA) (leftRow : Obj)
    (rightRS : List Obj)
    (h : ∀ rr ∈ rightRS,
      evaluateCondition jc.onCondition (mergeObj leftRow rr) = .ok false) :
    ∀ acc : List Obj,
      (rightRS.foldlM (fun acc rightRow => do
        let combinedRow := mergeObj leftRow rightRow
        let b ← evaluateCondition jc.onCondition combinedRow
        pure (if b then acc ++ [mergeObj leftRow rightRow] else acc)) acc :
        Except String (List Obj)) = .ok acc := by
  induction rightRS with
  | nil => intro acc; rfl
  | cons rr rs ih =>
      intro acc
      rw [List.foldlM_cons]
      have hrr := h rr (List.mem_cons_self rr rs)
      have hstep : (let combinedRow := mergeObj leftRow rr;
          do
          let b ← evaluateCondition jc.onCondition combinedRow
          pure (if b = true then acc ++ [mergeObj leftRow rr] else acc) :
          Except String (List Obj)) = .ok acc := by
        simp only [hrr]
        rfl
      rw [hstep]
      exact ih (fun rr2 h2 => h rr2 (List.mem_cons_of_mem rr h2)) acc

end TagonJS
namespace TagonJS

theorem joinOneLeftRow_no_match (rightRS : List Obj) (jc : JoinClauseA)
    (leftRow : Obj) (h1 : jc.joinType = "LEFT")
    (h2 : ∀ rr ∈ rightRS,
      evaluateCondition jc.onCondition (mergeObj leftRow rr) = .ok false) :
    joinOneLeftRow rightRS jc leftRow =
      .ok [mergeObj leftRow (nullRowOf rightRS jc)] := by
  unfold joinOneLeftRow
  rw [joinMatches_none jc leftRow rightRS h2 []]
  simp only [h1]
  rfl

/-- Scenario-D usuarios table: two users. -/
def c6Usuarios : TableData := TableData.mk
  [("id", ColMeta.mk "numero" ""), ("nome", ColMeta.mk "texto" "")]
  [("reg_1", [("id", Value.num (JNum.ofInt 1)), ("nome", Value.str "ana")]),
   ("reg_2", [("id", Value.num (JNum.ofInt 2)), ("nome", Value.str "bia")])]
  []

/-- A posts table that declares titulo but holds no records. -/
def c6PostsEmpty : TableData := TableData.mk
  [("id", ColMeta.mk "numero" ""), ("titulo", ColMeta.mk "texto" ""),
   ("usuario_id", ColMeta.mk "numero" "")] [] []

/-- A posts table with one post, written by user 1. -/
def c6Posts : TableData := { c6PostsEmpty with registros :=
  [("reg_1", [("id", Value.num (JNum.ofInt 1)),
    ("titulo", Value.str "oi"), ("usuario_id", Value.num (JNum.ofInt 1))])] }

/-- The LEFT JOIN clause of scenario D (alias p). -/
def c6Join : JoinClauseA := JoinClauseA.mk "LEFT" "posts"
  (Expr.bin (Expr.ident "id" (some "u")) "="
    (Expr.ident "usuario_id" (some "p"))) (some "p")

/-- The select list of scenario D (u.nome, p.titulo). -/
def c6Select : List ColumnExpr :=
  [ColumnExpr.mk (.expr (Expr.ident "nome" (some "u"))) none,
   ColumnExpr.mk (.expr (Expr.ident "titulo" (some "p"))) none]

/-- Storage with the empty posts table. -/
def c6S1 : Storage := Storage.mk [("blog", Database.mk
  [("usuarios", c6Usuarios), ("posts", c6PostsEmpty)])]

/-- Storage with the one-post posts table. -/
def c6S2 : Storage := Storage.mk [("blog", Database.mk
  [("usuarios", c6Usuarios), ("posts", c6Posts)])]

/-- The ana row emitted by the join against the empty posts table: no
right-table key is added at all. -/
def c6AnaJoinRow : Obj :=
  [("u.id", Value.num (JNum.ofInt 1)), ("id", Value.num (JNum.ofInt 1)),
   ("u.nome", Value.str "ana"), ("nome", Value.str "ana")]

/-- The bia row emitted by the join against the empty posts table. -/
def c6BiaJoinRow : Obj :=
  [("u.id", Value.num (JNum.ofInt 2)), ("id", Value.num (JNum.ofInt 2)),
   ("u.nome", Value.str "bia"), ("nome", Value.str "bia")]

/-- C6 (counterexample): when the right result set is empty, an unmatched
LEFT-join left row is emitted once but WITHOUT the right table's qualified
keys — posts declares titulo, yet the emitted row has no p.titulo key (the
read yields undefined, not null), because the null-extension keys are taken
from the first right result row, of which there is none.  The projected
scenario-D row accordingly carries undefined, not null. -/
theorem C6_left_join_empty_right_counterexample :
    performJoin (convertTableToResultSet c6Usuarios "usuarios" (some "u"))
      (convertTableToResultSet c6PostsEmpty "posts" (some "p")) c6Join =
      .ok [c6AnaJoinRow, c6BiaJoinRow] ∧
    ("titulo", ColMeta.mk "texto" "") ∈ c6PostsEmpty.colunas ∧
    objGet c6AnaJoinRow "p.titulo" = Value.undef ∧
    Value.undef ≠ Value.null ∧
    executeSelect c6S1 (some "blog") c6Select
      (FromClauseA.mk "usuarios" (some "u")) none [c6Join] none none =
      .ok (c6S1, ExecResult.mk true "📊 2 registro(s) encontrado(s)"
        [[("nome", Value.str "ana"), ("titulo", Value.undef)],
         [("nome", Value.str "bia"), ("titulo", Value.undef)]]) :=
  ⟨by decide, by decide, by decide, by decide, by decide⟩

/-- C6 (amended): an unmatched LEFT-join left row is emitted exactly once,
extended by null exactly at the keys of the FIRST right result row that
carry the right table's prefix (so no keys are added when the right result
set is empty); every key of that null extension reads null in the emitted
row.  Scenario D holds when posts has a record: the post-less user's row
carries titulo = null. -/
theorem C6_left_join_null_extension :
    (∀ (rightRS : List Obj) (jc : JoinClauseA) (leftRow : Obj),
      jc.joinType = "LEFT" →
      (∀ rr ∈ rightRS, evaluateCondition jc.onCondition (mergeObj leftRow rr)
        = .ok false) →
      joinOneLeftRow rightRS jc leftRow =
        .ok [mergeObj leftRow (nullRowOf rightRS jc)] ∧
      (∀ k ∈ objKeys (nullRowOf rightRS jc),
        objGet (mergeObj leftRow (nullRowOf rightRS jc)) k = Value.null)) ∧
    executeSelect c6S2 (some "blog") c6Select
      (FromClauseA.mk "usuarios" (some "u")) none [c6Join] none none =
      .ok (c6S2, ExecResult.mk true "📊 2 registro(s) encontrado(s)"
        [[("nome", Value.str "ana"), ("titulo", Value.str "oi")],
         [("nome", Value.str "bia"), ("titulo", Value.null)]]) := by
  constructor
  · intro rightRS jc leftRow h1 h2
    refine ⟨joinOneLeftRow_no_match rightRS jc leftRow h1 h2, ?_⟩
    intro k hk
    refine objGet_mergeObj_all_null _ leftRow k ?_ hk
    intro kv hkv
    unfold nullRowOf at hkv
    exact nullRow_entries_null _ []
      (fun kv2 h2' => absurd h2' (List.not_mem_nil kv2)) kv hkv
  · decide

/-- Witness for C6's amended theorem: the bia row of scenario D has no
matching post, and the right result set's first row carries the p-prefixed
keys, all read as null after the extension. -/
theorem C6_left_join_null_extension_witness :
    joinOneLeftRow (convertTableToResultSet c6Posts "posts" (some "p"))
        c6Join c6BiaJoinRow =
      .ok [mergeObj c6BiaJoinRow (nullRowOf
        (convertTableToResultSet c6Posts "posts" (some "p")) c6Join)] ∧
    objGet (mergeObj c6BiaJoinRow (nullRowOf
      (convertTableToResultSet c6Posts "posts" (some "p")) c6Join))
      "p.titulo" = Value.null :=
  ⟨(C6_left_join_null_extension.1
      (convertTableToResultSet c6Posts "posts" (some "p")) c6Join
      c6BiaJoinRow rfl (by decide)).1,
   (C6_left_join_null_extension.1
      (convertTableToResultSet c6Posts "posts" (some "p")) c6Join
      c6BiaJoinRow rfl (by decide)).2 "p.titulo" (by decide)⟩

end TagonJS
namespace TagonJS

/-- Lookup of the whole `db` under the `bancos` list of a freshly saved
storage returns the database that was just saved. -/
theorem loadDatabase_saveDatabase_self (st : Storage) (db : String)
    (d : Database) : loadDatabase (saveDatabase st db d) db = some d := by
  unfold loadDatabase saveDatabase
  rw [find?_mapSet_self]
  rfl

/-- Reading back the table that `saveTable` just wrote yields that table. -/
theorem loadTable_saveTable_self (st st2 : Storage) (db tn : String)
    (t : TableData) (h : saveTable st db tn t = .ok st2) :
    loadTable st2 db tn = some t := by
  unfold saveTable at h
  cases hld : loadDatabase st db with
  | none => rw [hld] at h; cases h
  | some dbv =>
      rw [hld] at h
      injection h with h2
      rw [← h2]
      unfold loadTable
      rw [loadDatabase_saveDatabase_self]
      show ((mapSet dbv.tabelas tn t).find?
        (fun kv => kv.1 == tn)).map (fun kv => kv.2) = some t
      rw [find?_mapSet_self]
      rfl

/-- Every successful `executeInsert` stores its freshly-built record by
`mapSet` under the key `reg_` followed by the pre-insert record count
plus one. -/
theorem executeInsert_stores_regN (st : Storage) (db tn : String)
    (td : TableData) (cols : Option (List String)) (vals : List Expr)
    (st2 : Storage) (res : ExecResult)
    (hload : loadTable st db tn = some td)
    (hrun : executeInsert st (some db) tn cols vals = .ok (st2, res)) :
    ∃ rec td2, loadTable st2 db tn = some td2 ∧
      td2.registros = mapSet td.registros
        ("reg_" ++ toString (td.registros.length + 1)) rec := by
  simp only [executeInsert, bind, Except.bind, pure, Except.pure, hload]
    at hrun
  split at hrun
  case isTrue => cases hrun
  case isFalse h1 =>
  split at hrun
  · cases hrun
  rename_i rec hfold
  split at hrun
  · cases hrun
  rename_i stS hsave
  injection hrun with hpair
  have hst2 : stS = st2 := congrArg Prod.fst hpair
  refine ⟨rec, TableData.mk td.colunas
    (mapSet td.registros ("reg_" ++ toString (td.registros.length + 1)) rec)
    td.constraints, ?_, rfl⟩
  rw [← hst2]
  exact loadTable_saveTable_self st stS db tn _ hsave

/-- Row with a single numeric `id` column, used by the C8 scenarios. -/
def c8Row (n : Int) : Obj := [("id", Value.num (JNum.ofInt n))]

/-- Column metadata shared by the C8 tables. -/
def c8Cols : List (String × ColMeta) := [("id", ColMeta.mk "numero" "")]

/-- WHERE condition `id = n`. -/
def c8WhereId (n : Int) : Expr :=
  Expr.bin (Expr.ident "id" none) "="
    (Expr.lit (Value.num (JNum.ofInt n)) "NUMBER")

/-- Value expression `9` inserted in the C8 scenarios. -/
def c8Val9 : Expr := Expr.lit (Value.num (JNum.ofInt 9)) "NUMBER"

/-- Storage with three records `reg_1`, `reg_2`, `reg_3`. -/
def c8S0 : Storage := Storage.mk [("db", Database.mk [("t",
  TableData.mk c8Cols
    [("reg_1", c8Row 1), ("reg_2", c8Row 2), ("reg_3", c8Row 3)] [])])]

/-- Storage after deleting `id = 1` from `c8S0`. -/
def c8S1 : Storage := Storage.mk [("db", Database.mk [("t",
  TableData.mk c8Cols [("reg_2", c8Row 2), ("reg_3", c8Row 3)] [])])]

/-- Storage after further deleting `id = 2` from `c8S1`. -/
def c8S2 : Storage := Storage.mk [("db", Database.mk [("t",
  TableData.mk c8Cols [("reg_3", c8Row 3)] [])])]

/-- Table held in `c8S2`. -/
def c8T2 : TableData := TableData.mk c8Cols [("reg_3", c8Row 3)] []

/-- Storage after inserting `9` into `c8S2`: the key `reg_2` is appended
after `reg_3`. -/
def c8S3 : Storage := Storage.mk [("db", Database.mk [("t",
  TableData.mk c8Cols [("reg_3", c8Row 3), ("reg_2", c8Row 9)] [])])]

/-- Result message of a one-record delete on table `t`. -/
def c8DelRes : ExecResult :=
  ExecResult.mk true "✅ 1 registro(s) removido(s) da tabela t" []

/-- Result message of a successful insert on table `t`. -/
def c8InsRes : ExecResult :=
  ExecResult.mk true "✅ Registro inserido na tabela t com sucesso" []

/-- C8 (counterexample): a state reachable by deleting a record other than
the last-numbered one in which the next insert does NOT collide. From
three records `reg_1 reg_2 reg_3`, deleting `id = 1` and then `id = 2`
(where `reg_2` is not the last-numbered record of the intermediate state)
leaves only `reg_3`, with count 1; the next insert generates the key
`reg_2` (count 1 + 1), which is absent, so `mapSet` appends a second
record instead of replacing one and the record count grows from 1 to 2 —
refuting the claim that after such a delete every next insert replaces an
existing record and leaves the count unchanged. -/
theorem C8_delete_then_insert_appends :
    executeDelete c8S0 (some "db") "t" (some (c8WhereId 1)) =
      .ok (c8S1, c8DelRes) ∧
    (loadTable c8S1 "db" "t").map (fun t => t.registros.map Prod.fst) =
      some ["reg_2", "reg_3"] ∧
    executeDelete c8S1 (some "db") "t" (some (c8WhereId 2)) =
      .ok (c8S2, c8DelRes) ∧
    (loadTable c8S2 "db" "t").map (fun t => t.registros.length) = some 1 ∧
    executeInsert c8S2 (some "db") "t" (some ["id"]) [c8Val9] =
      .ok (c8S3, c8InsRes) ∧
    (loadTable c8S3 "db" "t").map (fun t => t.registros.map Prod.fst) =
      some ["reg_3", "reg_2"] ∧
    (loadTable c8S3 "db" "t").map (fun t => t.registros.length) = some 2 :=
  ⟨by decide, by decide, by decide, by decide, by decide, by decide,
   by decide⟩

/-- C8 (amended): every successful insert does store the new record under
`reg_` followed by (current record count + 1), via `mapSet`, which
replaces in place exactly when that key already exists (count unchanged)
and appends otherwise (count grows by one); whether a post-delete state
collides depends on which keys remain. In the contiguous case the claimed
replacement does happen: from `reg_1 reg_2`, deleting `id = 1` leaves
only `reg_2`, and the next insert generates `reg_2` again and overwrites
that record in place, leaving the count at 1. -/
theorem C8_insert_key_reuse :
    (∀ (st : Storage) (db tn : String) (td : TableData)
        (cols : Option (List String)) (vals : List Expr)
        (st2 : Storage) (res : ExecResult),
      loadTable st db tn = some td →
      executeInsert st (some db) tn cols vals = .ok (st2, res) →
      ∃ rec td2, loadTable st2 db tn = some td2 ∧
        td2.registros = mapSet td.registros
          ("reg_" ++ toString (td.registros.length + 1)) rec) ∧
    (∀ (regs : List (String × Obj)) (k : String) (v : Obj),
      (regs.any (fun kv => kv.1 == k) = true →
        (mapSet regs k v).length = regs.length) ∧
      (regs.any (fun kv => kv.1 == k) = false →
        mapSet regs k v = regs ++ [(k, v)])) ∧
    executeDelete (Storage.mk [("db", Database.mk [("t",
        TableData.mk c8Cols [("reg_1", c8Row 1), ("reg_2", c8Row 2)] [])])])
        (some "db") "t" (some (c8WhereId 1)) =
      .ok (Storage.mk [("db", Database.mk [("t",
        TableData.mk c8Cols [("reg_2", c8Row 2)] [])])], c8DelRes) ∧
    executeInsert (Storage.mk [("db", Database.mk [("t",
        TableData.mk c8Cols [("reg_2", c8Row 2)] [])])])
        (some "db") "t" (some ["id"]) [c8Val9] =
      .ok (Storage.mk [("db", Database.mk [("t",
        TableData.mk c8Cols [("reg_2", c8Row 9)] [])])], c8InsRes) :=
  ⟨fun st db tn td cols vals st2 res hload hrun =>
      executeInsert_stores_regN st db tn td cols vals st2 res hload hrun,
   fun regs k v =>
      ⟨fun h => length_mapSet_of_mem regs k v h,
       fun h => mapSet_of_not_mem regs k v h⟩,
   by decide, by decide⟩

/-- Witness instantiating the universal parts of `C8_insert_key_reuse` at
concrete inputs. -/
theorem C8_insert_key_reuse_witness :
    (∃ rec td2, loadTable c8S3 "db" "t" = some td2 ∧
      td2.registros = mapSet c8T2.registros
        ("reg_" ++ toString (c8T2.registros.length + 1)) rec) ∧
    (mapSet [("reg_2", c8Row 2)] "reg_2" (c8Row 9)).length =
      [("reg_2", c8Row 2)].length ∧
    mapSet [("reg_3", c8Row 3)] "reg_2" (c8Row 9) =
      [("reg_3", c8Row 3)] ++ [("reg_2", c8Row 9)] :=
  ⟨C8_insert_key_reuse.1 c8S2 "db" "t" c8T2 (some ["id"]) [c8Val9]
      c8S3 c8InsRes (by decide) (by decide),
   (C8_insert_key_reuse.2.1 [("reg_2", c8Row 2)] "reg_2" (c8Row 9)).1
      (by decide),
   (C8_insert_key_reuse.2.1 [("reg_3", c8Row 3)] "reg_2" (c8Row 9)).2
      (by decide)⟩

end TagonJS
namespace TagonJS

/-- Specification-side grouping (written from the spec sentence, to be
compared with `applyGroupBy`): keep the first row per distinct composite
key, in input order, threading the list of keys already seen. -/
def applyGroupBySpecGo (gb : List Expr) (seen : List String) :
    List Obj → Except String (List Obj)
  | [] => pure []
  | r :: rest => do
      let k ← computeGroupKey gb r
      if seen.any (fun s => s == k) then applyGroupBySpecGo gb seen rest
      else do
        let tail ← applyGroupBySpecGo gb (seen ++ [k]) rest
        pure (r :: tail)

/-- Specification-side grouping over a whole result set. -/
def applyGroupBySpec (resultSet : List Obj) (groupBy : List Expr) :
    Except String (List Obj) :=
  applyGroupBySpecGo groupBy [] resultSet

/-- Group keys of `addToGroups`: unchanged when the key is present,
appended otherwise. -/
theorem addToGroups_keys (gs : List (String × List Obj)) (k : String)
    (row : Obj) :
    (addToGroups gs k row).map Prod.fst =
      if gs.any (fun g => g.1 == k) then gs.map Prod.fst
      else gs.map Prod.fst ++ [k] := by
  unfold addToGroups
  split
  · rename_i hm
    rw [List.map_map]
    refine List.map_congr_left ?_
    intro g _
    simp only [Function.comp]
    by_cases hk : (g.1 == k) = true
    · rw [if_pos hk]
    · rw [if_neg hk]
  · rename_i hm
    rw [List.map_append]
    rfl

/-- Groups stay nonempty through `addToGroups`. -/
theorem addToGroups_nonempty (gs : List (String × List Obj)) (k : String)
    (row : Obj) (h : ∀ g ∈ gs, g.2 ≠ []) :
    ∀ g ∈ addToGroups gs k row, g.2 ≠ [] := by
  unfold addToGroups
  split
  · intro g hg
    obtain ⟨g0, hg0, hmap⟩ := List.mem_map.mp hg
    by_cases hk : (g0.1 == k) = true
    · rw [if_pos hk] at hmap
      rw [← hmap]
      simp
    · rw [if_neg hk] at hmap
      rw [← hmap]
      exact h g0 hg0
  · intro g hg
    rcases List.mem_append.mp hg with hin | hlast
    · exact h g hin
    · rw [List.mem_singleton.mp hlast]
      simp

/-- When the key already has a group, `addToGroups` keeps every first
row unchanged. -/
theorem addToGroups_firsts_mem (gs : List (String × List Obj)) (k : String)
    (row : Obj) (h : ∀ g ∈ gs, g.2 ≠ [])
    (hm : gs.any (fun g => g.1 == k) = true) :
    (addToGroups gs k row).filterMap (fun g => g.2.head?) =
      gs.filterMap (fun g => g.2.head?) := by
  unfold addToGroups
  rw [if_pos hm, List.filterMap_map]
  refine List.filterMap_congr ?_
  intro g hg
  by_cases hk : (g.1 == k) = true
  · simp only [Function.comp, hk, if_pos]
    cases hgs : g.2 with
    | nil => exact absurd hgs (h g hg)
    | cons a t => simp
  · simp [Function.comp, hk]

/-- When the key is new, `addToGroups` appends the row as the first row
of a new group. -/
theorem addToGroups_firsts_notmem (gs : List (String × List Obj))
    (k : String) (row : Obj)
    (hm : gs.any (fun g => g.1 == k) = false) :
    (addToGroups gs k row).filterMap (fun g => g.2.head?) =
      gs.filterMap (fun g => g.2.head?) ++ [row] := by
  unfold addToGroups
  rw [if_neg (by simp [hm]), List.filterMap_append]
  rfl


/-- Membership test over the projected key list agrees with the test
over the group list. -/
theorem any_map_fst (gs : List (String × List Obj)) (k : String) :
    ((gs.map Prod.fst).any fun s => s == k) = gs.any fun g => g.1 == k := by
  induction gs with
  | nil => rfl
  | cons g t ih => simp only [List.map_cons, List.any_cons, ih]

/-- Invariant of the grouping fold: relative to any accumulator of
nonempty groups, the first rows produced by the fold are the already
accumulated ones followed by the spec-side firsts over the remaining
rows. -/
theorem applyGroupBy_fold_spec (gb : List Expr) (rows : List Obj) :
    ∀ (gs : List (String × List Obj)), (∀ g ∈ gs, g.2 ≠ []) →
    Except.map
        (fun gs2 : List (String × List Obj) =>
          gs2.filterMap (fun g => g.2.head?))
        (rows.foldlM (fun gs row => do
          let k ← computeGroupKey gb row
          pure (addToGroups gs k row)) gs)
      = Except.map
          (fun tail => gs.filterMap (fun g => g.2.head?) ++ tail)
          (applyGroupBySpecGo gb (gs.map Prod.fst) rows) := by
  induction rows with
  | nil =>
      intro gs h
      simp [applyGroupBySpecGo, List.foldlM, pure, Except.pure, Except.map]
  | cons r rest ih =>
      intro gs h
      simp only [List.foldlM, applyGroupBySpecGo, bind, Except.bind, pure,
        Except.pure]
      cases hk : computeGroupKey gb r with
      | error e => simp [Except.map]
      | ok k =>
          simp only []
          by_cases hm : (gs.any fun g => g.1 == k) = true
          · have hseen : ((gs.map Prod.fst).any fun s => s == k) = true := by
              rw [any_map_fst]
              exact hm
            rw [if_pos hseen]
            have hrw := ih (addToGroups gs k r) (addToGroups_nonempty gs k r h)
            simp only [bind, Except.bind, pure, Except.pure] at hrw
            rw [hrw, addToGroups_keys, if_pos hm]
            simp only [addToGroups_firsts_mem gs k r h hm]
          · have hmf : (gs.any fun g => g.1 == k) = false :=
              (Bool.not_eq_true _).mp hm
            have hseen : ((gs.map Prod.fst).any fun s => s == k) = false := by
              rw [any_map_fst]
              exact hmf
            rw [if_neg (by simp [hseen])]
            have hrw := ih (addToGroups gs k r) (addToGroups_nonempty gs k r h)
            simp only [bind, Except.bind, pure, Except.pure] at hrw
            rw [hrw, addToGroups_keys, if_neg (by simp [hmf])]
            simp only [addToGroups_firsts_notmem gs k r hmf]
            cases hrec : applyGroupBySpecGo gb (gs.map Prod.fst ++ [k]) rest
              with
            | error e => simp [Except.map]
            | ok t => simp [Except.map]


/-- `QueryExecutor.applyGroupBy` returns exactly the first row per
distinct composite string key, in input order. -/
theorem applyGroupBy_eq_spec (rows : List Obj) (gb : List Expr) :
    applyGroupBy rows gb = applyGroupBySpec rows gb := by
  have h := applyGroupBy_fold_spec gb rows []
    (fun g hg => absurd hg (List.not_mem_nil g))
  simp only [List.map_nil, List.filterMap_nil, List.nil_append] at h
  unfold applyGroupBy applyGroupBySpec
  cases hf : rows.foldlM (fun gs row => do
      let k ← computeGroupKey gb row
      pure (addToGroups gs k row)) ([] : List (String × List Obj)) with
  | error e =>
      rw [hf] at h
      simp only [Except.map] at h
      cases hs : applyGroupBySpecGo gb [] rows with
      | error e2 =>
          rw [hs] at h
          simp only [Except.map] at h
          injection h with he
          simp only [bind, Except.bind]
          rw [he]
      | ok t =>
          rw [hs] at h
          simp only [Except.map] at h
          cases h
  | ok gs2 =>
      rw [hf] at h
      simp only [Except.map] at h
      cases hs : applyGroupBySpecGo gb [] rows with
      | error e2 =>
          rw [hs] at h
          simp only [Except.map] at h
          cases h
      | ok t =>
          rw [hs] at h
          simp only [Except.map] at h
          injection h with he
          simp only [bind, Except.bind, pure, Except.pure]
          rw [he]

end TagonJS
namespace TagonJS

/-- Row whose column `a` holds the string `x|` and `b` holds `y`. -/
def c7R1 : Obj := [("a", Value.str "x|"), ("b", Value.str "y")]

/-- Row whose column `a` holds the string `x` and `b` holds `|y`. -/
def c7R2 : Obj := [("a", Value.str "x"), ("b", Value.str "|y")]

/-- GROUP BY expression list `a, b`. -/
def c7GB : List Expr := [Expr.ident "a" none, Expr.ident "b" none]

/-- C7 (counterexample): two rows whose tuples of evaluated group values
differ — the pair of strings (x|, y) versus (x, |y) — produce the same
composite key, because the key is the bar-joined concatenation of the
stringified values and the separator can occur inside a value; so
`applyGroupBy` merges the two rows into one group and returns only the
first, refuting the claim that rows with different evaluated tuples are
never merged. -/
theorem C7_distinct_tuples_merged :
    c7GB.mapM (fun e => evaluateExpression e c7R1) =
      .ok [Value.str "x|", Value.str "y"] ∧
    c7GB.mapM (fun e => evaluateExpression e c7R2) =
      .ok [Value.str "x", Value.str "|y"] ∧
    [Value.str "x|", Value.str "y"] ≠ [Value.str "x", Value.str "|y"] ∧
    computeGroupKey c7GB c7R1 = .ok "x||y" ∧
    computeGroupKey c7GB c7R2 = .ok "x||y" ∧
    applyGroupBy [c7R1, c7R2] c7GB = .ok [c7R1] :=
  ⟨by decide, by decide, by decide, by decide, by decide, by decide⟩

/-- C7 (amended): the grouping step returns exactly one row per distinct
composite STRING key — the bar-joined stringification of the group
expressions' evaluated values — namely the first row in input order with
that key (`applyGroupBySpec` is written from this sentence); distinctness
of keys is coarser than distinctness of evaluated value tuples, since the
separator may occur inside a stringified value. -/
theorem C7_group_by_first_per_composite_key (rows : List Obj)
    (gb : List Expr) :
    applyGroupBy rows gb = applyGroupBySpec rows gb :=
  applyGroupBy_eq_spec rows gb

/-- Witness applying `C7_group_by_first_per_composite_key` at the
counterexample rows. -/
theorem C7_group_by_first_per_composite_key_witness :
    applyGroupBy [c7R1, c7R2] c7GB = applyGroupBySpec [c7R1, c7R2] c7GB :=
  C7_group_by_first_per_composite_key [c7R1, c7R2] c7GB

end TagonJS
